import Mathlib

/-!
# tinyrpc : rpc_websocket_service

A shallow embedding of `src/rpc/rpc_websocket_service.hpp` and the properties of
its session table, handler registry, dispatch engine and write queue.

Conventions of the embedding.

* The service object is a record of its four data members plus the transport
  it borrows; every member function is a function on that record.
* The schema facility (protobuf descriptors, message parsing and
  serialisation, the envelope codec) is external to the file under study and
  is taken as a parameter `P : Protobuf Msg`.
* A statement whose behaviour is undefined in C++ (indexing a vector past its
  end, dereferencing a null handler, popping an empty deque) yields a `Fault`
  instead of a new state.  `BOOST_ASSERT` is compiled out, as in a release
  build.
* Completion handlers and user handlers are not run by the model: every
  invocation is appended to the `effects` log of the service, in program order.
  A completion is recorded when the call operation is invoked, which is the
  point where the source posts it to its executor.
* Session ids are natural numbers.  The conversions between `size_t`,
  `uint32` and `int` that the source applies to them are the identity for
  tables of fewer than `2^31` slots, the range this development covers.
-/

namespace tinyrpc

/-- Byte strings (the contents of a `std::string`), one number per byte. -/
abbrev Bytes := List Nat

/-- Modelled from the spec: the error taxonomy of `rpc_error_code.hpp`, which is
not part of the sources at hand; the enumerators carry the names used by
`rpc_websocket_service.hpp`. -/
inductive errc
  | parse_rpc_service_ptl_failed
  | unknow_protocol_descriptor
  | parse_payload_failed
  | session_out_of_range
  | invalid_session
  deriving DecidableEq, Repr

/-- A `boost::system::error_code`: the default constructed value (success), a
code made from `errc`, or a failure reported by the transport. -/
inductive error_code
  | success
  | rpc (e : errc)
  | transport (value : Nat)
  deriving DecidableEq, Repr

/-- The boolean test `if (ec)`. -/
def error_code.failed : error_code → Bool
  | .success => false
  | .rpc _ => true
  | .transport _ => true

/-- The enum `rpc_base_ptl::call`. -/
inductive call_type
  | caller
  | callee
  deriving DecidableEq, Repr

/-- Modelled from the spec: the wire envelope `rpc_service_ptl::rpc_base_ptl`
declared in `rpc_service_ptl.pb.h`, with its four fields. -/
structure rpc_base_ptl where
  call : call_type
  session : Nat
  message : String
  payload : Bytes
  deriving DecidableEq, Repr

/-- What the service reads from a `google::protobuf::Descriptor`: the full
name, `index()` and `file()->message_type_count()`. -/
structure Descriptor where
  full_name : String
  index : Nat
  message_type_count : Nat
  deriving DecidableEq, Repr

/-- The schema facility the service consumes.  `ParseFromString m data` is the
content of the message object `m` after a successful parse of `data`, and
`none` when parsing fails (the content of the object is then unspecified). -/
structure Protobuf (Msg : Type) where
  FindMessageTypeByName : String → Option Descriptor
  descriptor : Msg → Descriptor
  GetTypeName : Msg → String
  SerializeAsString : Msg → Bytes
  ParseFromString : Msg → Bytes → Option Msg
  New : Msg → Msg
  SerializeEnvelope : rpc_base_ptl → Bytes
  ParseEnvelope : Bytes → Option rpc_base_ptl

/-- The class `detail::rpc_remote_handler` seen through its base
`rpc_bind_handler`: the two static prototypes and the user callable, which
receives the request and the reply object and leaves the reply filled. -/
structure rpc_bind_handler (Msg : Type) where
  msg_ : Msg
  ret_ : Msg
  handler_ : Msg → Msg → Msg

/-- The class `detail::rpc_call_op`: the completion handler (named by a
number) and the reply destination `data_`. -/
structure rpc_call_op (Msg : Type) where
  handler_ : Nat
  data_ : Msg

/-- Observable calls made by the service into user code. -/
inductive Effect (Msg : Type)
  | completion (handler : Nat) (ec : error_code)
  | result (handler : Nat) (value : Msg)
  | method (m : rpc_bind_handler Msg) (req : Msg) (reply : Msg)

/-- The borrowed transport: every buffer handed to `async_write`, in order, and
the buffers whose write handler has not been called yet. -/
structure Websocket where
  written : List Bytes
  in_flight : List Bytes
  deriving DecidableEq, Repr

/-- Outcomes that are undefined behaviour in the source. -/
inductive Fault
  | index_out_of_range
  | null_method
  | pop_front_empty
  deriving DecidableEq, Repr

/-- The class `rpc_websocket_service`. -/
structure rpc_websocket_service (Msg : Type) where
  m_websocket : Websocket
  m_message_queue : List Bytes
  m_remote_methods : List (Option (rpc_bind_handler Msg))
  m_call_ops : List (Option (rpc_call_op Msg))
  m_recycle : List Nat
  effects : List (Effect Msg)

/-- The constructor `rpc_websocket_service(ws)` on an idle transport. -/
def fresh (Msg : Type) : rpc_websocket_service Msg :=
  { m_websocket := { written := [], in_flight := [] }
    m_message_queue := []
    m_remote_methods := []
    m_call_ops := []
    m_recycle := []
    effects := [] }

/-- The transport operation `async_write`. -/
def async_write (ws : Websocket) (buf : Bytes) : Websocket :=
  { written := ws.written ++ [buf], in_flight := ws.in_flight ++ [buf] }

/-- The member `rpc_write`. -/
def rpc_write {Msg : Type} (s : rpc_websocket_service Msg) (context : Bytes) :
    rpc_websocket_service Msg :=
  let write_in_progress := !s.m_message_queue.isEmpty
  let s1 := { s with m_message_queue := s.m_message_queue ++ [context] }
  if !write_in_progress then
    match s1.m_message_queue with
    | front :: _ => { s1 with m_websocket := async_write s1.m_websocket front }
    | [] => s1
  else s1

/-- The member `clean_remote_methods`. -/
def clean_remote_methods {Msg : Type} (s : rpc_websocket_service Msg) :
    rpc_websocket_service Msg :=
  { s with m_remote_methods := [] }

/-- The completions fired by the loop of `abort_rpc`, one per occupied slot in
table order. -/
def abort_effects {Msg : Type} (ops : List (Option (rpc_call_op Msg))) (ec : error_code) :
    List (Effect Msg) :=
  match ops with
  | [] => []
  | none :: rest => abort_effects rest ec
  | some h :: rest => Effect.completion h.handler_ ec :: abort_effects rest ec

/-- The member `abort_rpc`. -/
def abort_rpc {Msg : Type} (s : rpc_websocket_service Msg) (ec : error_code) :
    rpc_websocket_service Msg :=
  clean_remote_methods
    { s with
      effects := s.effects ++ abort_effects s.m_call_ops ec
      m_call_ops := s.m_call_ops.map (fun _ => none) }

/-- The member `rpc_write_handle`. -/
def rpc_write_handle {Msg : Type} (s : rpc_websocket_service Msg) (ec : error_code) :
    Except Fault (rpc_websocket_service Msg) :=
  if ec.failed then .ok (abort_rpc s ec)
  else
    match s.m_message_queue with
    | [] => .error Fault.pop_front_empty
    | _ :: rest =>
      match rest with
      | [] => .ok { s with m_message_queue := rest }
      | context :: _ =>
        .ok { s with m_message_queue := rest, m_websocket := async_write s.m_websocket context }

/-- The transport completes its oldest outstanding write and calls the bound
`rpc_write_handle` with `ec`; `none` when no write is outstanding. -/
def write_complete {Msg : Type} (s : rpc_websocket_service Msg) (ec : error_code) :
    Option (Except Fault (rpc_websocket_service Msg)) :=
  match s.m_websocket.in_flight with
  | [] => none
  | _ :: rest =>
    some (rpc_write_handle { s with m_websocket := { s.m_websocket with in_flight := rest } } ec)

/-- The member template `rpc_bind<Request, Reply>(handler)`; `req` and `reply`
stand for the static prototype objects of the two types. -/
def rpc_bind {Msg : Type} (P : Protobuf Msg) (s : rpc_websocket_service Msg)
    (req reply : Msg) (handler : Msg → Msg → Msg) :
    Except Fault (rpc_websocket_service Msg) :=
  let desc := P.descriptor req
  let methods :=
    if s.m_remote_methods.isEmpty then List.replicate desc.message_type_count none
    else s.m_remote_methods
  let h : rpc_bind_handler Msg := { msg_ := req, ret_ := reply, handler_ := handler }
  if desc.index < methods.length then
    .ok { s with m_remote_methods := methods.set desc.index (some h) }
  else .error Fault.index_out_of_range

/-- The member template `async_call(msg, ret, handler)`. -/
def async_call {Msg : Type} (P : Protobuf Msg) (s : rpc_websocket_service Msg)
    (msg ret : Msg) (handler : Nat) : Except Fault (rpc_websocket_service Msg) :=
  let op : rpc_call_op Msg := { handler_ := handler, data_ := ret }
  match s.m_recycle.getLast? with
  | none =>
    let session := s.m_call_ops.length
    let rb : rpc_base_ptl :=
      { message := P.GetTypeName msg, payload := P.SerializeAsString msg,
        call := call_type.caller, session := session }
    .ok (rpc_write { s with m_call_ops := s.m_call_ops ++ [some op] } (P.SerializeEnvelope rb))
  | some session =>
    let rb : rpc_base_ptl :=
      { message := P.GetTypeName msg, payload := P.SerializeAsString msg,
        call := call_type.caller, session := session }
    if session < s.m_call_ops.length then
      .ok (rpc_write
        { s with m_recycle := s.m_recycle.dropLast, m_call_ops := s.m_call_ops.set session (some op) }
        (P.SerializeEnvelope rb))
    else .error Fault.index_out_of_range

/-- The member `rpc_dispatch(rb, ec)`; the second component of the result is
the value of the reference parameter `ec` on return. -/
def rpc_dispatch {Msg : Type} (P : Protobuf Msg) (s : rpc_websocket_service Msg)
    (rb : rpc_base_ptl) (ec : error_code) :
    Except Fault (rpc_websocket_service Msg × error_code) :=
  match rb.call with
  | call_type.caller =>
    let session := rb.session
    match P.FindMessageTypeByName rb.message with
    | none => .ok (s, error_code.rpc errc.unknow_protocol_descriptor)
    | some descriptor =>
      match s.m_remote_methods[descriptor.index]? with
      | none => .error Fault.index_out_of_range
      | some none => .error Fault.null_method
      | some (some method) =>
        match P.ParseFromString (P.New method.msg_) rb.payload with
        | none => .ok (s, error_code.rpc errc.parse_payload_failed)
        | some msg =>
          let reply0 := P.New method.ret_
          let reply := method.handler_ msg reply0
          let rpc_reply : rpc_base_ptl :=
            { message := P.GetTypeName reply, payload := P.SerializeAsString reply,
              call := call_type.callee, session := session }
          .ok (rpc_write { s with effects := s.effects ++ [Effect.method method msg reply0] }
                (P.SerializeEnvelope rpc_reply), ec)
  | call_type.callee =>
    let session := rb.session
    if session ≥ s.m_call_ops.length then
      .ok (s, error_code.rpc errc.session_out_of_range)
    else
      match s.m_call_ops[session]? with
      | some (some handler) =>
        let s1 :=
          { s with m_call_ops := s.m_call_ops.set session none, m_recycle := s.m_recycle ++ [session] }
        match P.ParseFromString handler.data_ rb.payload with
        | none => .ok (s1, error_code.rpc errc.parse_payload_failed)
        | some value =>
          .ok ({ s1 with
                 effects := s1.effects ++
                   [Effect.result handler.handler_ value,
                    Effect.completion handler.handler_ error_code.success] }, ec)
      | _ => .ok (s, error_code.rpc errc.invalid_session)

/-- The member `dispatch(buf, ec)`: the new state, the returned byte count and
the value of the reference parameter `ec` on return. -/
def dispatch {Msg : Type} (P : Protobuf Msg) (s : rpc_websocket_service Msg)
    (buf : Bytes) (ec : error_code) :
    Except Fault (rpc_websocket_service Msg × Nat × error_code) :=
  match P.ParseEnvelope buf with
  | none =>
    let ec1 := error_code.rpc errc.parse_rpc_service_ptl_failed
    .ok (abort_rpc s ec1, 0, ec1)
  | some rb =>
    match rpc_dispatch P s rb ec with
    | .error f => .error f
    | .ok (s1, ec1) =>
      if ec1.failed then .ok (abort_rpc s1 ec1, 0, ec1)
      else .ok (s1, buf.length, ec1)

/-- One transition of the service: a public entry point called by the user
(`rpc_bind`, `async_call`, `dispatch`), a write completion delivered by the
transport, or `abort_rpc`.  A call that faults has no successor state. -/
inductive Step {Msg : Type} (P : Protobuf Msg) :
    rpc_websocket_service Msg → rpc_websocket_service Msg → Prop
  | bind (s s1 : rpc_websocket_service Msg) (req reply : Msg) (handler : Msg → Msg → Msg) :
      rpc_bind P s req reply handler = .ok s1 → Step P s s1
  | call (s s1 : rpc_websocket_service Msg) (msg ret : Msg) (handler : Nat) :
      async_call P s msg ret handler = .ok s1 → Step P s s1
  | dispatch (s s1 : rpc_websocket_service Msg) (buf : Bytes) (ec : error_code) (n : Nat)
      (ec1 : error_code) :
      dispatch P s buf ec = .ok (s1, n, ec1) → Step P s s1
  | write_complete (s s1 : rpc_websocket_service Msg) (ec : error_code) :
      write_complete s ec = some (.ok s1) → Step P s s1
  | abort (s : rpc_websocket_service Msg) (ec : error_code) : Step P s (abort_rpc s ec)

/-- The states the service can be in: those reached from a fresh service by
finitely many transitions. -/
inductive Reachable {Msg : Type} (P : Protobuf Msg) : rpc_websocket_service Msg → Prop
  | fresh : Reachable P (fresh Msg)
  | step (s s1 : rpc_websocket_service Msg) : Reachable P s → Step P s s1 → Reachable P s1

/-- Slot `i` of the session table holds a call operation. -/
def occupied {Msg : Type} (s : rpc_websocket_service Msg) (i : Nat) : Bool :=
  match s.m_call_ops[i]? with
  | some (some _) => true
  | _ => false

/-- The effect is the invocation of a bound user handler. -/
def Effect.is_method {Msg : Type} : Effect Msg → Bool
  | Effect.method _ _ _ => true
  | _ => false

/-- The error codes with which the completion handler `h` has been invoked, in order. -/
def completions {Msg : Type} (h : Nat) : List (Effect Msg) → List error_code
  | [] => []
  | Effect.completion k ec :: rest =>
    if k = h then ec :: completions h rest else completions h rest
  | _ :: rest => completions h rest

/-- The free-list invariant of the session table: every id on the free list
indexes an empty slot of the table, and no id is listed twice. -/
def FreeInv {Msg : Type} (s : rpc_websocket_service Msg) : Prop :=
  (∀ i ∈ s.m_recycle, s.m_call_ops[i]? = some none) ∧ s.m_recycle.Nodup

/-- The effect is the invocation of a completion handler with the success code. -/
def Effect.is_success_completion {Msg : Type} : Effect Msg → Bool
  | Effect.completion _ error_code.success => true
  | _ => false

/-- An event of the write queue: `rpc_write` is called with a buffer, or the
transport reports the completion of the outstanding write with `ec`. -/
inductive QEvent
  | enqueue (buf : Bytes)
  | write_complete (ec : error_code)
  deriving DecidableEq, Repr

/-- The event is not a failed write completion. -/
def QEvent.succeeds : QEvent → Bool
  | QEvent.enqueue _ => true
  | QEvent.write_complete ec => !ec.failed

/-- One event of the write queue; `none` when the event is a write completion
and no write is outstanding, or when `rpc_write_handle` faults. -/
def q_step {Msg : Type} (s : rpc_websocket_service Msg) :
    QEvent → Option (rpc_websocket_service Msg)
  | QEvent.enqueue buf => some (rpc_write s buf)
  | QEvent.write_complete ec =>
    match write_complete s ec with
    | some (.ok s1) => some s1
    | _ => none

/-- A sequence of write-queue events, run from `s`. -/
def q_run {Msg : Type} (s : rpc_websocket_service Msg) :
    List QEvent → Option (rpc_websocket_service Msg)
  | [] => some s
  | e :: es =>
    match q_step s e with
    | some s1 => q_run s1 es
    | none => none

/-- The buffers passed to `rpc_write` by a sequence of events, in order. -/
def enqueued : List QEvent → List Bytes
  | [] => []
  | QEvent.enqueue buf :: es => buf :: enqueued es
  | QEvent.write_complete _ :: es => enqueued es

/-- The arguments of one call `rpc_bind<Request, Reply>(handler)`. -/
structure Binding (Msg : Type) where
  req : Msg
  reply : Msg
  handler : Msg → Msg → Msg

/-- The most recent of the bindings whose request type has schema index `i`. -/
def last_bound {Msg : Type} (P : Protobuf Msg) (binds : List (Binding Msg)) (i : Nat) :
    Option (Binding Msg) :=
  (binds.filter (fun b => decide ((P.descriptor b.req).index = i))).getLast?

namespace Example

/-- A schema with the messages `Ping` and `Pong` of one file and the message
`Echo` of another file; each carries one number. -/
inductive Msg
  | Ping (nonce : Nat)
  | Pong (nonce : Nat)
  | Echo (nonce : Nat)
  deriving DecidableEq, Repr

/-- The descriptor of a message object. -/
def descriptor : Msg → Descriptor
  | Msg.Ping _ => { full_name := "Ping", index := 0, message_type_count := 2 }
  | Msg.Pong _ => { full_name := "Pong", index := 1, message_type_count := 2 }
  | Msg.Echo _ => { full_name := "Echo", index := 0, message_type_count := 1 }

/-- The generated descriptor pool. -/
def FindMessageTypeByName (name : String) : Option Descriptor :=
  if name = "Ping" then some (descriptor (Msg.Ping 0))
  else if name = "Pong" then some (descriptor (Msg.Pong 0))
  else if name = "Echo" then some (descriptor (Msg.Echo 0))
  else none

/-- The payload of a message is its single field. -/
def SerializeAsString : Msg → Bytes
  | Msg.Ping n => [n]
  | Msg.Pong n => [n]
  | Msg.Echo n => [n]

/-- Parsing accepts exactly the one-byte payloads. -/
def ParseFromString : Msg → Bytes → Option Msg
  | Msg.Ping _, [n] => some (Msg.Ping n)
  | Msg.Pong _, [n] => some (Msg.Pong n)
  | Msg.Echo _, [n] => some (Msg.Echo n)
  | _, _ => none

/-- A default valued object of the same type. -/
def New : Msg → Msg
  | Msg.Ping _ => Msg.Ping 0
  | Msg.Pong _ => Msg.Pong 0
  | Msg.Echo _ => Msg.Echo 0

/-- An envelope is encoded as direction, session, length of the message name,
the characters of the name, payload. -/
def SerializeEnvelope (rb : rpc_base_ptl) : Bytes :=
  (match rb.call with
    | call_type.caller => 0
    | call_type.callee => 1) ::
    rb.session :: rb.message.data.length :: (rb.message.data.map Char.toNat ++ rb.payload)

/-- Decoding of an envelope; a frame of fewer than three bytes, with a
direction out of range or shorter than its name is malformed. -/
def ParseEnvelope : Bytes → Option rpc_base_ptl
  | d :: session :: n :: rest =>
    if n ≤ rest.length then
      match d with
      | 0 =>
        some { call := call_type.caller, session := session,
               message := String.mk ((rest.take n).map Char.ofNat), payload := rest.drop n }
      | 1 =>
        some { call := call_type.callee, session := session,
               message := String.mk ((rest.take n).map Char.ofNat), payload := rest.drop n }
      | _ => none
    else none
  | _ => none

/-- The example schema facility. -/
def proto : Protobuf Msg :=
  { FindMessageTypeByName := FindMessageTypeByName
    descriptor := descriptor
    GetTypeName := fun m => (descriptor m).full_name
    SerializeAsString := SerializeAsString
    ParseFromString := ParseFromString
    New := New
    SerializeEnvelope := SerializeEnvelope
    ParseEnvelope := ParseEnvelope }

/-- The handler of scenario S1: copies the nonce of the request into the reply. -/
def ping_handler : Msg → Msg → Msg
  | Msg.Ping n, _ => Msg.Pong n
  | _, reply => reply

/-- A fresh service on which the handler for (Ping, Pong) has been bound. -/
def bound : rpc_websocket_service Msg :=
  { fresh Msg with
    m_remote_methods :=
      [some { msg_ := Msg.Ping 0, ret_ := Msg.Pong 0, handler_ := ping_handler }, none] }

/-- The service after the call of scenario S1, `async_call(Ping{nonce=42}, pong, 7)`. -/
def called : rpc_websocket_service Msg :=
  { m_websocket := { written := [[0, 0, 4, 80, 105, 110, 103, 42]],
                     in_flight := [[0, 0, 4, 80, 105, 110, 103, 42]] }
    m_message_queue := [[0, 0, 4, 80, 105, 110, 103, 42]]
    m_remote_methods := []
    m_call_ops := [some { handler_ := 7, data_ := Msg.Pong 0 }]
    m_recycle := []
    effects := [] }

/-- A service that bound the (Ping, Pong) handler and has the call of scenario
S1 outstanding. -/
def serving : rpc_websocket_service Msg :=
  { called with m_remote_methods := bound.m_remote_methods }

end Example

/-! ## The write queue as seen by the other members -/

theorem rpc_write_queue {Msg : Type} (s : rpc_websocket_service Msg) (context : Bytes) :
    (rpc_write s context).m_message_queue = s.m_message_queue ++ [context] := by
  unfold rpc_write
  cases hq : s.m_message_queue <;> simp

theorem rpc_write_call_ops {Msg : Type} (s : rpc_websocket_service Msg) (context : Bytes) :
    (rpc_write s context).m_call_ops = s.m_call_ops := by
  unfold rpc_write
  cases hq : s.m_message_queue <;> simp

theorem rpc_write_recycle {Msg : Type} (s : rpc_websocket_service Msg) (context : Bytes) :
    (rpc_write s context).m_recycle = s.m_recycle := by
  unfold rpc_write
  cases hq : s.m_message_queue <;> simp

theorem rpc_write_remote_methods {Msg : Type} (s : rpc_websocket_service Msg) (context : Bytes) :
    (rpc_write s context).m_remote_methods = s.m_remote_methods := by
  unfold rpc_write
  cases hq : s.m_message_queue <;> simp

theorem rpc_write_effects {Msg : Type} (s : rpc_websocket_service Msg) (context : Bytes) :
    (rpc_write s context).effects = s.effects := by
  unfold rpc_write
  cases hq : s.m_message_queue <;> simp

/-! ## The loop of `abort_rpc` -/

theorem abort_effects_not_method {Msg : Type} (ops : List (Option (rpc_call_op Msg)))
    (ec : error_code) : ∀ e ∈ abort_effects ops ec, e.is_method = false := by
  induction ops with
  | nil => simp [abort_effects]
  | cons o rest ih =>
    cases o with
    | none => simpa [abort_effects] using ih
    | some h =>
      intro e he
      simp only [abort_effects, List.mem_cons] at he
      rcases he with rfl | he
      · rfl
      · exact ih e he

theorem abort_effects_complete {Msg : Type} (ops : List (Option (rpc_call_op Msg)))
    (ec : error_code) (i : Nat) (op : rpc_call_op Msg) (h : ops[i]? = some (some op)) :
    Effect.completion op.handler_ ec ∈ abort_effects ops ec := by
  induction ops generalizing i with
  | nil => simp at h
  | cons o rest ih =>
    cases i with
    | zero =>
      simp only [List.getElem?_cons_zero, Option.some.injEq] at h
      subst h
      simp [abort_effects]
    | succ j =>
      simp only [List.getElem?_cons_succ] at h
      have := ih j h
      cases o with
      | none => simpa [abort_effects] using this
      | some k => simp [abort_effects, this]

theorem occupied_map_none {Msg : Type} (s : rpc_websocket_service Msg) (i : Nat)
    (h : ∃ ops : List (Option (rpc_call_op Msg)), s.m_call_ops = ops.map (fun _ => none)) :
    occupied s i = false := by
  obtain ⟨ops, h⟩ := h
  unfold occupied
  rw [h, List.getElem?_map]
  cases ops[i]? <;> rfl

/-! ## Dispatch of a reply (callee path) -/

/-- C6: a callee envelope for an occupied slot whose payload parses into the
reply destination of that slot: `dispatch` returns the frame length without
error, records the parsed value for the completion of that slot followed by its
invocation with the success code (and nothing else), empties the slot, and
leaves every other slot, the handler registry and the write queue as they
were. -/
theorem dispatch_callee_completes {Msg : Type} (P : Protobuf Msg)
    (s : rpc_websocket_service Msg) (buf : Bytes) (rb : rpc_base_ptl)
    (op : rpc_call_op Msg) (value : Msg)
    (hframe : P.ParseEnvelope buf = some rb)
    (hcall : rb.call = call_type.callee)
    (hslot : s.m_call_ops[rb.session]? = some (some op))
    (hpay : P.ParseFromString op.data_ rb.payload = some value) :
    ∃ s1, dispatch P s buf error_code.success = .ok (s1, buf.length, error_code.success) ∧
      s1.effects = s.effects ++
        [Effect.result op.handler_ value, Effect.completion op.handler_ error_code.success] ∧
      s1.m_call_ops.length = s.m_call_ops.length ∧
      s1.m_call_ops[rb.session]? = some none ∧
      (∀ i, i ≠ rb.session → s1.m_call_ops[i]? = s.m_call_ops[i]?) ∧
      s1.m_remote_methods = s.m_remote_methods ∧
      s1.m_message_queue = s.m_message_queue ∧
      s1.m_websocket = s.m_websocket := by
  have hlt : rb.session < s.m_call_ops.length := by
    by_contra hge
    rw [List.getElem?_eq_none (not_lt.mp hge)] at hslot
    cases hslot
  refine ⟨{ s with
      m_call_ops := s.m_call_ops.set rb.session none
      m_recycle := s.m_recycle ++ [rb.session]
      effects := s.effects ++
        [Effect.result op.handler_ value, Effect.completion op.handler_ error_code.success] },
    ?_, ?_⟩
  · simp [dispatch, hframe, rpc_dispatch, hcall, not_le.mpr hlt, hslot, hpay, error_code.failed]
  · refine ⟨rfl, by simp, by simp [hlt], ?_, rfl, rfl, rfl⟩
    intro i hi
    simp [List.getElem?_set, Ne.symm hi]

/-- The scenario of C6 on the example schema: the reply `Pong{nonce=42}` for
session 0 of a service with one outstanding call. -/
theorem dispatch_callee_completes_witness :
    ∃ s1, dispatch Example.proto Example.called [1, 0, 4, 80, 111, 110, 103, 42]
        error_code.success = .ok (s1, 8, error_code.success) ∧
      s1.effects = Example.called.effects ++
        [Effect.result 7 (Example.Msg.Pong 42), Effect.completion 7 error_code.success] ∧
      s1.m_call_ops.length = 1 ∧
      s1.m_call_ops[0]? = some none ∧
      (∀ i, i ≠ 0 → s1.m_call_ops[i]? = Example.called.m_call_ops[i]?) ∧
      s1.m_remote_methods = Example.called.m_remote_methods ∧
      s1.m_message_queue = Example.called.m_message_queue ∧
      s1.m_websocket = Example.called.m_websocket :=
  dispatch_callee_completes Example.proto Example.called [1, 0, 4, 80, 111, 110, 103, 42]
    { call := call_type.callee, session := 0, message := "Pong", payload := [42] }
    { handler_ := 7, data_ := Example.Msg.Pong 0 } (Example.Msg.Pong 42)
    (by decide) rfl rfl rfl

/-! ## Dispatch of a request (caller path) -/

theorem dispatch_caller_ok {Msg : Type} (P : Protobuf Msg)
    (s : rpc_websocket_service Msg) (buf : Bytes) (rb : rpc_base_ptl)
    (d : Descriptor) (method : rpc_bind_handler Msg) (req : Msg)
    (hframe : P.ParseEnvelope buf = some rb)
    (hcall : rb.call = call_type.caller)
    (hdesc : P.FindMessageTypeByName rb.message = some d)
    (hmethod : s.m_remote_methods[d.index]? = some (some method))
    (hpay : P.ParseFromString (P.New method.msg_) rb.payload = some req) :
    dispatch P s buf error_code.success =
      .ok (rpc_write { s with effects := s.effects ++ [Effect.method method req (P.New method.ret_)] }
        (P.SerializeEnvelope
          { call := call_type.callee
            session := rb.session
            message := P.GetTypeName (method.handler_ req (P.New method.ret_))
            payload := P.SerializeAsString (method.handler_ req (P.New method.ret_)) }),
        buf.length, error_code.success) := by
  simp [dispatch, hframe, rpc_dispatch, hcall, hdesc, hmethod, hpay, error_code.failed]

/-- C7: a caller envelope whose message name resolves to a descriptor with a
bound handler and whose payload parses as a fresh request of that handler:
`dispatch` invokes the handler once on the parsed request and a fresh reply,
appends one callee envelope with the incoming session, the type name and the
serialisation of the reply the handler produced, leaves the session table
unchanged and returns the frame length without error. -/
theorem dispatch_caller_replies {Msg : Type} (P : Protobuf Msg)
    (s : rpc_websocket_service Msg) (buf : Bytes) (rb : rpc_base_ptl)
    (d : Descriptor) (method : rpc_bind_handler Msg) (req : Msg)
    (hframe : P.ParseEnvelope buf = some rb)
    (hcall : rb.call = call_type.caller)
    (hdesc : P.FindMessageTypeByName rb.message = some d)
    (hmethod : s.m_remote_methods[d.index]? = some (some method))
    (hpay : P.ParseFromString (P.New method.msg_) rb.payload = some req) :
    ∃ s1, dispatch P s buf error_code.success = .ok (s1, buf.length, error_code.success) ∧
      s1.effects = s.effects ++ [Effect.method method req (P.New method.ret_)] ∧
      s1.m_message_queue = s.m_message_queue ++
        [P.SerializeEnvelope
          { call := call_type.callee
            session := rb.session
            message := P.GetTypeName (method.handler_ req (P.New method.ret_))
            payload := P.SerializeAsString (method.handler_ req (P.New method.ret_)) }] ∧
      s1.m_call_ops = s.m_call_ops ∧
      s1.m_recycle = s.m_recycle ∧
      s1.m_remote_methods = s.m_remote_methods := by
  refine ⟨_, dispatch_caller_ok P s buf rb d method req hframe hcall hdesc hmethod hpay, ?_⟩
  simp [rpc_write_effects, rpc_write_queue, rpc_write_call_ops, rpc_write_recycle,
    rpc_write_remote_methods]

/-- The scenario of C7 on the example schema: the request `Ping{nonce=42}` with
session 5 arrives at a service that bound the (Ping, Pong) handler. -/
theorem dispatch_caller_replies_witness :
    ∃ s1, dispatch Example.proto Example.bound [0, 5, 4, 80, 105, 110, 103, 42]
        error_code.success = .ok (s1, 8, error_code.success) ∧
      s1.effects = Example.bound.effects ++
        [Effect.method
          { msg_ := Example.Msg.Ping 0, ret_ := Example.Msg.Pong 0,
            handler_ := Example.ping_handler }
          (Example.Msg.Ping 42) (Example.Msg.Pong 0)] ∧
      s1.m_message_queue = Example.bound.m_message_queue ++ [[1, 5, 4, 80, 111, 110, 103, 42]] ∧
      s1.m_call_ops = Example.bound.m_call_ops ∧
      s1.m_recycle = Example.bound.m_recycle ∧
      s1.m_remote_methods = Example.bound.m_remote_methods :=
  dispatch_caller_replies Example.proto Example.bound [0, 5, 4, 80, 105, 110, 103, 42]
    { call := call_type.caller, session := 5, message := "Ping", payload := [42] }
    (Example.descriptor (Example.Msg.Ping 0))
    { msg_ := Example.Msg.Ping 0, ret_ := Example.Msg.Pong 0, handler_ := Example.ping_handler }
    (Example.Msg.Ping 42) (by decide) rfl (by decide) rfl rfl

/-- C10: a caller envelope whose message name is unknown to the schema
facility: `dispatch` returns 0 with `unknow_protocol_descriptor`, invokes no
bound handler, leaves the write queue and the transport untouched, fires the
completion of every call that was outstanding with that error, and leaves the
session table without occupied slot and the handler registry empty. -/
theorem dispatch_unknown_message {Msg : Type} (P : Protobuf Msg)
    (s : rpc_websocket_service Msg) (buf : Bytes) (rb : rpc_base_ptl)
    (hframe : P.ParseEnvelope buf = some rb)
    (hcall : rb.call = call_type.caller)
    (hdesc : P.FindMessageTypeByName rb.message = none) :
    ∃ s1 fired,
      dispatch P s buf error_code.success =
        .ok (s1, 0, error_code.rpc errc.unknow_protocol_descriptor) ∧
      s1.effects = s.effects ++ fired ∧
      (∀ e ∈ fired, e.is_method = false) ∧
      (∀ (i : Nat) (op : rpc_call_op Msg), s.m_call_ops[i]? = some (some op) →
        Effect.completion op.handler_ (error_code.rpc errc.unknow_protocol_descriptor) ∈ fired) ∧
      (∀ i, occupied s1 i = false) ∧
      s1.m_remote_methods = [] ∧
      s1.m_message_queue = s.m_message_queue ∧
      s1.m_websocket = s.m_websocket := by
  refine ⟨abort_rpc s (error_code.rpc errc.unknow_protocol_descriptor),
    abort_effects s.m_call_ops (error_code.rpc errc.unknow_protocol_descriptor), ?_, ?_⟩
  · simp [dispatch, hframe, rpc_dispatch, hcall, hdesc, error_code.failed]
  · refine ⟨rfl, abort_effects_not_method _ _, ?_, ?_, rfl, rfl, rfl⟩
    · intro i op h
      exact abort_effects_complete _ _ i op h
    · intro i
      exact occupied_map_none _ i ⟨s.m_call_ops, rfl⟩

/-- The scenario S3 of C10 on the example schema: a request for the message
`Nope` arrives while one call is outstanding. -/
theorem dispatch_unknown_message_witness :
    ∃ s1 fired,
      dispatch Example.proto Example.called [0, 3, 4, 78, 111, 112, 101] error_code.success =
        .ok (s1, 0, error_code.rpc errc.unknow_protocol_descriptor) ∧
      s1.effects = Example.called.effects ++ fired ∧
      (∀ e ∈ fired, e.is_method = false) ∧
      (∀ (i : Nat) (op : rpc_call_op Example.Msg), Example.called.m_call_ops[i]? = some (some op) →
        Effect.completion op.handler_ (error_code.rpc errc.unknow_protocol_descriptor) ∈ fired) ∧
      (∀ i, occupied s1 i = false) ∧
      s1.m_remote_methods = [] ∧
      s1.m_message_queue = Example.called.m_message_queue ∧
      s1.m_websocket = Example.called.m_websocket :=
  dispatch_unknown_message Example.proto Example.called [0, 3, 4, 78, 111, 112, 101]
    { call := call_type.caller, session := 3, message := "Nope", payload := [] }
    (by decide) rfl (by decide)


/-! ## The free-list invariant -/

theorem FreeInv_of_eq {Msg : Type} (s s1 : rpc_websocket_service Msg)
    (hops : s1.m_call_ops = s.m_call_ops) (hrec : s1.m_recycle = s.m_recycle)
    (h : FreeInv s) : FreeInv s1 := by
  unfold FreeInv at *
  rw [hops, hrec]
  exact h

theorem FreeInv_fresh (Msg : Type) : FreeInv (fresh Msg) := by
  simp [FreeInv, fresh]

theorem FreeInv_rpc_write {Msg : Type} (s : rpc_websocket_service Msg) (context : Bytes)
    (h : FreeInv s) : FreeInv (rpc_write s context) :=
  FreeInv_of_eq s _ (rpc_write_call_ops s context) (rpc_write_recycle s context) h

theorem FreeInv_abort_rpc {Msg : Type} (s : rpc_websocket_service Msg) (ec : error_code)
    (h : FreeInv s) : FreeInv (abort_rpc s ec) := by
  refine ⟨?_, h.2⟩
  intro i hi
  have hsome := h.1 i hi
  show (s.m_call_ops.map (fun _ => none))[i]? = some none
  rw [List.getElem?_map, hsome]
  rfl

theorem FreeInv_lt {Msg : Type} (s : rpc_websocket_service Msg) (h : FreeInv s)
    (i : Nat) (hi : i ∈ s.m_recycle) : i < s.m_call_ops.length := by
  by_contra hge
  have := h.1 i hi
  rw [List.getElem?_eq_none (not_lt.mp hge)] at this
  cases this

theorem FreeInv_rpc_bind {Msg : Type} (P : Protobuf Msg) (s s1 : rpc_websocket_service Msg)
    (req reply : Msg) (handler : Msg → Msg → Msg)
    (hstep : rpc_bind P s req reply handler = .ok s1) (h : FreeInv s) : FreeInv s1 := by
  simp only [rpc_bind] at hstep
  split_ifs at hstep <;> cases hstep <;> exact FreeInv_of_eq s _ rfl rfl h

theorem FreeInv_async_call {Msg : Type} (P : Protobuf Msg) (s s1 : rpc_websocket_service Msg)
    (msg ret : Msg) (handler : Nat)
    (hstep : async_call P s msg ret handler = .ok s1) (h : FreeInv s) : FreeInv s1 := by
  unfold async_call at hstep
  simp only at hstep
  split at hstep
  · rename_i hlast
    cases hstep
    have hnil : s.m_recycle = [] := List.getLast?_eq_none_iff.mp hlast
    refine ⟨?_, ?_⟩
    · intro i hi
      rw [rpc_write_recycle] at hi
      simp [hnil] at hi
    · rw [rpc_write_recycle]
      simp [hnil]
  · rename_i session hlast
    split at hstep
    · rename_i hlt
      cases hstep
      have hsplit : s.m_recycle = s.m_recycle.dropLast ++ [session] := by
        have := List.dropLast_append_getLast? session (Option.mem_def.mpr hlast)
        exact this.symm
      have hnd : (s.m_recycle.dropLast ++ [session]).Nodup := hsplit ▸ h.2
      refine ⟨?_, ?_⟩
      · intro i hi
        rw [rpc_write_recycle] at hi
        rw [rpc_write_call_ops]
        have hi2 : i ∈ s.m_recycle.dropLast := hi
        have hne : session ≠ i := by
          rintro rfl
          have := List.disjoint_of_nodup_append hnd hi2
          simp at this
        have hmem : i ∈ s.m_recycle := List.dropLast_subset _ hi2
        show (s.m_call_ops.set session _)[i]? = some none
        rw [List.getElem?_set_ne hne]
        exact h.1 i hmem
      · rw [rpc_write_recycle]
        exact (List.nodup_append.mp hnd).1
    · cases hstep

theorem FreeInv_rpc_dispatch {Msg : Type} (P : Protobuf Msg) (s s1 : rpc_websocket_service Msg)
    (rb : rpc_base_ptl) (ec ec1 : error_code)
    (hstep : rpc_dispatch P s rb ec = .ok (s1, ec1)) (h : FreeInv s) : FreeInv s1 := by
  unfold rpc_dispatch at hstep
  split at hstep
  · simp only at hstep
    split at hstep
    · cases hstep; exact h
    · split at hstep
      · cases hstep
      · cases hstep
      · split at hstep
        · cases hstep; exact h
        · cases hstep
          exact FreeInv_rpc_write _ _ (FreeInv_of_eq s _ rfl rfl h)
  · simp only at hstep
    split at hstep
    · cases hstep; exact h
    · rename_i hlt
      have hlt2 : rb.session < s.m_call_ops.length := not_le.mp hlt
      split at hstep
      · rename_i op hslot
        have key : FreeInv
            { s with m_call_ops := s.m_call_ops.set rb.session none,
                     m_recycle := s.m_recycle ++ [rb.session] } := by
          refine ⟨?_, ?_⟩
          · intro i hi
            have hi2 : i ∈ s.m_recycle ++ [rb.session] := hi
            show (s.m_call_ops.set rb.session none)[i]? = some none
            by_cases heq : rb.session = i
            · subst heq
              simp [hlt2]
            · rw [List.getElem?_set_ne heq]
              rcases List.mem_append.mp hi2 with hm | hm
              · exact h.1 i hm
              · simp at hm
                exact absurd hm.symm heq
          · show (s.m_recycle ++ [rb.session]).Nodup
            rw [List.nodup_append]
            refine ⟨h.2, by simp, ?_⟩
            intro a ha hb
            simp at hb
            subst hb
            have := h.1 _ ha
            rw [hslot] at this
            cases this
        split at hstep
        · cases hstep; exact key
        · cases hstep
          exact FreeInv_of_eq _ _ rfl rfl key
      · cases hstep; exact h

theorem FreeInv_dispatch {Msg : Type} (P : Protobuf Msg) (s s1 : rpc_websocket_service Msg)
    (buf : Bytes) (ec ec1 : error_code) (n : Nat)
    (hstep : dispatch P s buf ec = .ok (s1, n, ec1)) (h : FreeInv s) : FreeInv s1 := by
  unfold dispatch at hstep
  split at hstep
  · cases hstep
    exact FreeInv_abort_rpc _ _ h
  · split at hstep
    · cases hstep
    · rename_i s2 ec2 hd
      have h2 := FreeInv_rpc_dispatch P s s2 _ ec ec2 hd h
      split at hstep
      · cases hstep
        exact FreeInv_abort_rpc _ _ h2
      · cases hstep
        exact h2

theorem FreeInv_rpc_write_handle {Msg : Type} (s s1 : rpc_websocket_service Msg)
    (ec : error_code) (hstep : rpc_write_handle s ec = .ok s1) (h : FreeInv s) :
    FreeInv s1 := by
  unfold rpc_write_handle at hstep
  split at hstep
  · cases hstep
    exact FreeInv_abort_rpc _ _ h
  · split at hstep
    · cases hstep
    · split at hstep
      · cases hstep
        exact FreeInv_of_eq s _ rfl rfl h
      · cases hstep
        exact FreeInv_of_eq s _ rfl rfl h

theorem FreeInv_write_complete {Msg : Type} (s s1 : rpc_websocket_service Msg)
    (ec : error_code) (hstep : write_complete s ec = some (.ok s1)) (h : FreeInv s) :
    FreeInv s1 := by
  unfold write_complete at hstep
  split at hstep
  · cases hstep
  · simp only [Option.some.injEq] at hstep
    exact FreeInv_rpc_write_handle _ s1 ec hstep (FreeInv_of_eq s _ rfl rfl h)

theorem FreeInv_step {Msg : Type} (P : Protobuf Msg) (s s1 : rpc_websocket_service Msg)
    (hstep : Step P s s1) (h : FreeInv s) : FreeInv s1 := by
  cases hstep with
  | bind _ req reply handler hb => exact FreeInv_rpc_bind P s s1 req reply handler hb h
  | call _ msg ret handler hc => exact FreeInv_async_call P s s1 msg ret handler hc h
  | dispatch _ buf ec n ec1 hd => exact FreeInv_dispatch P s s1 buf ec ec1 n hd h
  | write_complete _ ec hw => exact FreeInv_write_complete s s1 ec hw h
  | abort ec => exact FreeInv_abort_rpc s ec h

theorem FreeInv_reachable {Msg : Type} (P : Protobuf Msg) (s : rpc_websocket_service Msg)
    (h : Reachable P s) : FreeInv s := by
  induction h with
  | fresh => exact FreeInv_fresh Msg
  | step s s1 _ hstep ih => exact FreeInv_step P s s1 hstep ih


/-! ## Issuing a call -/

theorem async_call_spec {Msg : Type} (P : Protobuf Msg) (s : rpc_websocket_service Msg)
    (h : FreeInv s) (msg ret : Msg) (handler : Nat) :
    ∃ s1 session, async_call P s msg ret handler = .ok s1 ∧
      s1.m_message_queue = s.m_message_queue ++
        [P.SerializeEnvelope
          { call := call_type.caller
            session := session
            message := P.GetTypeName msg
            payload := P.SerializeAsString msg }] ∧
      (s.m_recycle = [] → session = s.m_call_ops.length ∧
        s1.m_call_ops = s.m_call_ops ++ [some { handler_ := handler, data_ := ret }]) ∧
      (s.m_recycle ≠ [] → s.m_recycle.getLast? = some session ∧
        session < s.m_call_ops.length ∧
        s1.m_call_ops = s.m_call_ops.set session (some { handler_ := handler, data_ := ret })) ∧
      s1.m_recycle = s.m_recycle.dropLast ∧
      occupied s session = false ∧
      s1.m_remote_methods = s.m_remote_methods ∧
      s1.effects = s.effects := by
  cases hlast : s.m_recycle.getLast? with
  | none =>
    have hnil : s.m_recycle = [] := List.getLast?_eq_none_iff.mp hlast
    refine ⟨_, s.m_call_ops.length, by simp only [async_call, hlast]; rfl, ?_⟩
    simp [rpc_write_queue, rpc_write_call_ops, rpc_write_recycle, rpc_write_remote_methods,
      rpc_write_effects, hnil, occupied]
  | some session =>
    have hne : s.m_recycle ≠ [] := by
      intro hnil
      simp [hnil] at hlast
    have hmem : session ∈ s.m_recycle := List.mem_of_getLast?_eq_some hlast
    have hlt : session < s.m_call_ops.length := FreeInv_lt s h session hmem
    have hempty : s.m_call_ops[session]? = some none := h.1 session hmem
    refine ⟨_, session, by simp only [async_call, hlast, hlt, if_true]; rfl, ?_⟩
    simp [rpc_write_queue, rpc_write_call_ops, rpc_write_recycle, rpc_write_remote_methods,
      rpc_write_effects, hne, hlt, occupied, hempty]

/-- C4: in every state of the service `async_call` appends exactly one
envelope with direction caller, the type name and the serialisation of the
request, and a session chosen so: the table length when the free list is empty
(the table then grows by one slot), else the last element of the free list
(that element is removed, the table keeps its length).  The slot of that
session afterwards holds the reply destination and completion of this call. -/
theorem async_call_issues_session {Msg : Type} (P : Protobuf Msg)
    (s : rpc_websocket_service Msg) (hs : Reachable P s) (msg ret : Msg) (handler : Nat) :
    ∃ s1 session, async_call P s msg ret handler = .ok s1 ∧
      s1.m_message_queue = s.m_message_queue ++
        [P.SerializeEnvelope
          { call := call_type.caller
            session := session
            message := P.GetTypeName msg
            payload := P.SerializeAsString msg }] ∧
      (s.m_recycle = [] → session = s.m_call_ops.length ∧
        s1.m_call_ops.length = s.m_call_ops.length + 1 ∧ s1.m_recycle = []) ∧
      (s.m_recycle ≠ [] → s.m_recycle.getLast? = some session ∧
        s1.m_recycle = s.m_recycle.dropLast ∧
        s1.m_call_ops.length = s.m_call_ops.length) ∧
      s1.m_call_ops[session]? = some (some { handler_ := handler, data_ := ret }) := by
  obtain ⟨s1, session, hok, hq, hnil, hcons, hrec, -, -, -⟩ :=
    async_call_spec P s (FreeInv_reachable P s hs) msg ret handler
  refine ⟨s1, session, hok, hq, ?_, ?_, ?_⟩
  · intro h0
    obtain ⟨h1, h2⟩ := hnil h0
    exact ⟨h1, by simp [h2], by simp [hrec, h0]⟩
  · intro h0
    obtain ⟨h1, -, h3⟩ := hcons h0
    exact ⟨h1, hrec, by simp [h3]⟩
  · by_cases h0 : s.m_recycle = []
    · obtain ⟨h1, h2⟩ := hnil h0
      simp [h1, h2]
    · obtain ⟨-, h2, h3⟩ := hcons h0
      simp [h3, h2]

/-- The first call on a fresh service (C4): it is issued, and by the first
branch its session is 0. -/
theorem async_call_issues_session_witness :
    Reachable Example.proto (fresh Example.Msg) ∧
    ∃ s1 session,
      async_call Example.proto (fresh Example.Msg) (Example.Msg.Ping 42) (Example.Msg.Pong 0) 7 =
        .ok s1 ∧
      s1.m_message_queue = (fresh Example.Msg).m_message_queue ++
        [Example.proto.SerializeEnvelope
          { call := call_type.caller
            session := session
            message := "Ping"
            payload := [42] }] ∧
      ((fresh Example.Msg).m_recycle = [] → session = 0 ∧
        s1.m_call_ops.length = 0 + 1 ∧ s1.m_recycle = []) ∧
      ((fresh Example.Msg).m_recycle ≠ [] → (fresh Example.Msg).m_recycle.getLast? = some session ∧
        s1.m_recycle = (fresh Example.Msg).m_recycle.dropLast ∧
        s1.m_call_ops.length = 0) ∧
      s1.m_call_ops[session]? = some (some { handler_ := 7, data_ := Example.Msg.Pong 0 }) :=
  ⟨Reachable.fresh,
    async_call_issues_session Example.proto (fresh Example.Msg) Reachable.fresh
      (Example.Msg.Ping 42) (Example.Msg.Pong 0) 7⟩

/-- C3: in every reachable state each id on the free list is below the table
length, names an empty slot and is listed once; hence `async_call` succeeds,
the session it puts into its envelope names a slot that was not occupied, and
every slot that was occupied still holds the same call operation afterwards. -/
theorem async_call_session_unoccupied {Msg : Type} (P : Protobuf Msg)
    (s : rpc_websocket_service Msg) (hs : Reachable P s) :
    (∀ i ∈ s.m_recycle, i < s.m_call_ops.length ∧ occupied s i = false) ∧
    s.m_recycle.Nodup ∧
    ∀ (msg ret : Msg) (handler : Nat),
      ∃ s1 session, async_call P s msg ret handler = .ok s1 ∧
        s1.m_message_queue = s.m_message_queue ++
          [P.SerializeEnvelope
            { call := call_type.caller
              session := session
              message := P.GetTypeName msg
              payload := P.SerializeAsString msg }] ∧
        occupied s session = false ∧
        ∀ i, occupied s i = true → s1.m_call_ops[i]? = s.m_call_ops[i]? := by
  have hinv := FreeInv_reachable P s hs
  refine ⟨?_, hinv.2, ?_⟩
  · intro i hi
    refine ⟨FreeInv_lt s hinv i hi, ?_⟩
    simp [occupied, hinv.1 i hi]
  · intro msg ret handler
    obtain ⟨s1, session, hok, hq, hnil, hcons, -, hocc, -, -⟩ :=
      async_call_spec P s hinv msg ret handler
    refine ⟨s1, session, hok, hq, hocc, ?_⟩
    intro i hi
    have hne : session ≠ i := by
      rintro rfl
      rw [hocc] at hi
      cases hi
    by_cases h0 : s.m_recycle = []
    · obtain ⟨h1, h2⟩ := hnil h0
      have hlt : i < s.m_call_ops.length := by
        by_contra hge
        simp [occupied, List.getElem?_eq_none (not_lt.mp hge)] at hi
      rw [h2, List.getElem?_append_left hlt]
    · obtain ⟨-, -, h3⟩ := hcons h0
      rw [h3, List.getElem?_set_ne hne]

/-- An instance of C3: the state after one call on a fresh service, whose slot
0 is occupied; a further call leaves slot 0 alone. -/
theorem async_call_session_unoccupied_witness :
    Reachable Example.proto Example.called ∧
    (∀ i ∈ Example.called.m_recycle,
      i < Example.called.m_call_ops.length ∧ occupied Example.called i = false) ∧
    Example.called.m_recycle.Nodup ∧
    ∀ (msg ret : Example.Msg) (handler : Nat),
      ∃ s1 session, async_call Example.proto Example.called msg ret handler = .ok s1 ∧
        s1.m_message_queue = Example.called.m_message_queue ++
          [Example.proto.SerializeEnvelope
            { call := call_type.caller
              session := session
              message := Example.proto.GetTypeName msg
              payload := Example.proto.SerializeAsString msg }] ∧
        occupied Example.called session = false ∧
        ∀ i, occupied Example.called i = true →
          s1.m_call_ops[i]? = Example.called.m_call_ops[i]? :=
  have hreach : Reachable Example.proto Example.called :=
    Reachable.step (fresh Example.Msg) Example.called Reachable.fresh
      (Step.call (fresh Example.Msg) Example.called (Example.Msg.Ping 42) (Example.Msg.Pong 0) 7 rfl)
  ⟨hreach, async_call_session_unoccupied Example.proto Example.called hreach⟩


/-! ## The example schema -/

theorem Example.ParseEnvelope_SerializeEnvelope (e : rpc_base_ptl) :
    Example.proto.ParseEnvelope (Example.proto.SerializeEnvelope e) = some e := by
  obtain ⟨c, n, ⟨m⟩, p⟩ := e
  cases c <;>
    simp [Example.proto, Example.ParseEnvelope, Example.SerializeEnvelope,
      List.take_append_of_le_length, Function.comp_def]

/-! ## Recycling and the round trip -/

/-- C5: when session `rb.session` is outstanding and a callee envelope for it
arrives whose payload parses, `dispatch` succeeds and leaves that session as
the last element of the free list; the very next `async_call` then emits an
envelope with that session and the table keeps the length it had. -/
theorem recycled_session_reused {Msg : Type} (P : Protobuf Msg)
    (s : rpc_websocket_service Msg) (buf : Bytes) (rb : rpc_base_ptl)
    (op : rpc_call_op Msg) (value : Msg)
    (hframe : P.ParseEnvelope buf = some rb)
    (hcall : rb.call = call_type.callee)
    (hslot : s.m_call_ops[rb.session]? = some (some op))
    (hpay : P.ParseFromString op.data_ rb.payload = some value) :
    ∃ s1, dispatch P s buf error_code.success = .ok (s1, buf.length, error_code.success) ∧
      s1.m_recycle.getLast? = some rb.session ∧
      ∀ (msg ret : Msg) (handler : Nat),
        ∃ s2, async_call P s1 msg ret handler = .ok s2 ∧
          s2.m_message_queue = s1.m_message_queue ++
            [P.SerializeEnvelope
              { call := call_type.caller
                session := rb.session
                message := P.GetTypeName msg
                payload := P.SerializeAsString msg }] ∧
          s2.m_call_ops.length = s.m_call_ops.length := by
  have hlt : rb.session < s.m_call_ops.length := by
    by_contra hge
    rw [List.getElem?_eq_none (not_lt.mp hge)] at hslot
    cases hslot
  refine ⟨{ s with
      m_call_ops := s.m_call_ops.set rb.session none
      m_recycle := s.m_recycle ++ [rb.session]
      effects := s.effects ++
        [Effect.result op.handler_ value, Effect.completion op.handler_ error_code.success] },
    ?_, ?_, ?_⟩
  · simp [dispatch, hframe, rpc_dispatch, hcall, not_le.mpr hlt, hslot, hpay, error_code.failed]
  · simp
  · intro msg ret handler
    refine ⟨rpc_write
        { s with
          m_call_ops :=
            (s.m_call_ops.set rb.session none).set rb.session
              (some { handler_ := handler, data_ := ret })
          m_recycle := s.m_recycle
          effects := s.effects ++
            [Effect.result op.handler_ value, Effect.completion op.handler_ error_code.success] }
        (P.SerializeEnvelope
          { call := call_type.caller
            session := rb.session
            message := P.GetTypeName msg
            payload := P.SerializeAsString msg }),
      ?_, ?_, ?_⟩
    · simp [async_call, hlt]
    · simp [rpc_write_queue]
    · simp [rpc_write_call_ops]

/-- The scenarios S1 and S2 (C5): the reply to the first call of a fresh
service is dispatched; the next call has session 0 again and the table keeps
its size 1. -/
theorem recycled_session_reused_witness :
    ∃ s1, dispatch Example.proto Example.called [1, 0, 4, 80, 111, 110, 103, 42]
        error_code.success = .ok (s1, 8, error_code.success) ∧
      s1.m_recycle.getLast? = some 0 ∧
      ∀ (msg ret : Example.Msg) (handler : Nat),
        ∃ s2, async_call Example.proto s1 msg ret handler = .ok s2 ∧
          s2.m_message_queue = s1.m_message_queue ++
            [Example.proto.SerializeEnvelope
              { call := call_type.caller
                session := 0
                message := Example.proto.GetTypeName msg
                payload := Example.proto.SerializeAsString msg }] ∧
          s2.m_call_ops.length = 1 :=
  recycled_session_reused Example.proto Example.called [1, 0, 4, 80, 111, 110, 103, 42]
    { call := call_type.callee, session := 0, message := "Pong", payload := [42] }
    { handler_ := 7, data_ := Example.Msg.Pong 0 } (Example.Msg.Pong 42)
    (by decide) rfl rfl rfl

/-- C8: let the envelope codec round-trip, let the request `r` name a
descriptor whose registry entry `method` is bound, and let the payload codec
round-trip on `r` and on the reply the handler produces for `r`.  Then the
frame that `async_call` appends to the write queue, fed to `dispatch` on the
same service, is accepted, and `dispatch` appends a callee envelope that
carries the session of the call and decodes to the reply of the handler. -/
theorem call_dispatch_round_trip {Msg : Type} (P : Protobuf Msg)
    (s : rpc_websocket_service Msg) (hs : Reachable P s)
    (r ret : Msg) (handler : Nat) (d : Descriptor) (method : rpc_bind_handler Msg)
    (henv : ∀ e, P.ParseEnvelope (P.SerializeEnvelope e) = some e)
    (hdesc : P.FindMessageTypeByName (P.GetTypeName r) = some d)
    (hmethod : s.m_remote_methods[d.index]? = some (some method))
    (hreq : P.ParseFromString (P.New method.msg_) (P.SerializeAsString r) = some r)
    (hrep : P.ParseFromString (P.New method.ret_)
        (P.SerializeAsString (method.handler_ r (P.New method.ret_))) =
      some (method.handler_ r (P.New method.ret_))) :
    ∃ s1 frame call_rb,
      async_call P s r ret handler = .ok s1 ∧
      s1.m_message_queue = s.m_message_queue ++ [frame] ∧
      P.ParseEnvelope frame = some call_rb ∧
      ∃ s2 reply_frame reply_rb,
        dispatch P s1 frame error_code.success = .ok (s2, frame.length, error_code.success) ∧
        s2.m_message_queue = s1.m_message_queue ++ [reply_frame] ∧
        P.ParseEnvelope reply_frame = some reply_rb ∧
        reply_rb.call = call_type.callee ∧
        reply_rb.session = call_rb.session ∧
        P.ParseFromString (P.New method.ret_) reply_rb.payload =
          some (method.handler_ r (P.New method.ret_)) := by
  obtain ⟨s1, session, hok, hq, -, -, -, -, hm, -⟩ :=
    async_call_spec P s (FreeInv_reachable P s hs) r ret handler
  have hmethod1 : s1.m_remote_methods[d.index]? = some (some method) := by rw [hm]; exact hmethod
  have hd := dispatch_caller_ok P s1
    (P.SerializeEnvelope
      { call := call_type.caller
        session := session
        message := P.GetTypeName r
        payload := P.SerializeAsString r })
    { call := call_type.caller
      session := session
      message := P.GetTypeName r
      payload := P.SerializeAsString r }
    d method r (henv _) rfl hdesc hmethod1 hreq
  refine ⟨s1, _, _, hok, hq, henv _, ?_⟩
  exact ⟨_, _, _, hd, rpc_write_queue _ _, henv _, rfl, rfl, hrep⟩

/-- The scenario S1 as an instance of C8: the service that bound the
(Ping, Pong) handler calls `Ping{nonce=42}` and is fed its own frame. -/
theorem call_dispatch_round_trip_witness :
    Reachable Example.proto Example.bound ∧
    ∃ s1 frame call_rb,
      async_call Example.proto Example.bound (Example.Msg.Ping 42) (Example.Msg.Pong 0) 7 =
        .ok s1 ∧
      s1.m_message_queue = Example.bound.m_message_queue ++ [frame] ∧
      Example.proto.ParseEnvelope frame = some call_rb ∧
      ∃ s2 reply_frame reply_rb,
        dispatch Example.proto s1 frame error_code.success =
          .ok (s2, frame.length, error_code.success) ∧
        s2.m_message_queue = s1.m_message_queue ++ [reply_frame] ∧
        Example.proto.ParseEnvelope reply_frame = some reply_rb ∧
        reply_rb.call = call_type.callee ∧
        reply_rb.session = call_rb.session ∧
        Example.proto.ParseFromString (Example.Msg.Pong 0) reply_rb.payload =
          some (Example.Msg.Pong 42) :=
  have hreach : Reachable Example.proto Example.bound :=
    Reachable.step (fresh Example.Msg) Example.bound Reachable.fresh
      (Step.bind (fresh Example.Msg) Example.bound (Example.Msg.Ping 0) (Example.Msg.Pong 0)
        Example.ping_handler rfl)
  ⟨hreach,
    call_dispatch_round_trip Example.proto Example.bound hreach
      (Example.Msg.Ping 42) (Example.Msg.Pong 0) 7
      (Example.descriptor (Example.Msg.Ping 0))
      { msg_ := Example.Msg.Ping 0, ret_ := Example.Msg.Pong 0, handler_ := Example.ping_handler }
      Example.ParseEnvelope_SerializeEnvelope (by decide) rfl rfl rfl⟩


/-! ## Behaviour at the inputs where the source departs from its specification -/

/-- C1 at a failing input: a fresh service issues one call with completion 7
(session 0); the reply frame for session 0 carries a truncated payload.
`dispatch` returns 0 with `parse_payload_failed`, slot 0 has left the session
table, and completion 7 has not been invoked with any code. -/
theorem completion_lost_on_unparsable_reply :
    async_call Example.proto (fresh Example.Msg) (Example.Msg.Ping 42) (Example.Msg.Pong 0) 7 =
      .ok Example.called ∧
    ∃ s1, dispatch Example.proto Example.called [1, 0, 4, 80, 111, 110, 103] error_code.success =
        .ok (s1, 0, error_code.rpc errc.parse_payload_failed) ∧
      s1.m_call_ops = [none] ∧
      s1.m_recycle = [0] ∧
      completions 7 s1.effects = [] :=
  ⟨rfl, _, rfl, rfl, rfl, rfl⟩

/-- C2 at a failing input: a fresh service issues one call (session 0) and is
then aborted, by `abort_rpc` itself or by `dispatch` of a malformed frame.
Afterwards id 0 is below the table length, its slot is empty, and it is not on
the free list. -/
theorem aborted_session_not_recycled :
    async_call Example.proto (fresh Example.Msg) (Example.Msg.Ping 42) (Example.Msg.Pong 0) 7 =
      .ok Example.called ∧
    (0 < (abort_rpc Example.called (error_code.transport 1)).m_call_ops.length ∧
      occupied (abort_rpc Example.called (error_code.transport 1)) 0 = false ∧
      0 ∉ (abort_rpc Example.called (error_code.transport 1)).m_recycle) ∧
    ∃ s1, dispatch Example.proto Example.called [] error_code.success =
        .ok (s1, 0, error_code.rpc errc.parse_rpc_service_ptl_failed) ∧
      0 < s1.m_call_ops.length ∧ occupied s1 0 = false ∧ 0 ∉ s1.m_recycle :=
  ⟨rfl, ⟨by decide, rfl, by decide⟩, _, rfl, by decide, rfl, by decide⟩

/-- C9 at two failing inputs: a request for the known message `Ping` on a
service that never bound a handler indexes the empty registry out of range; a
request for `Pong` on a service that bound only the (Ping, Pong) handler reads
the empty registry entry 1 and dereferences it.  In neither case does
`dispatch` return an error code. -/
theorem dispatch_unbound_message_faults :
    dispatch Example.proto (fresh Example.Msg) [0, 5, 4, 80, 105, 110, 103, 42]
        error_code.success = .error Fault.index_out_of_range ∧
    dispatch Example.proto Example.bound [0, 5, 4, 80, 111, 110, 103, 42]
        error_code.success = .error Fault.null_method :=
  ⟨rfl, rfl⟩


/-! ## Abort -/

theorem abort_effects_eq {Msg : Type} (ops : List (Option (rpc_call_op Msg)))
    (ec : error_code) :
    abort_effects ops ec =
      (ops.filterMap id).map (fun op => Effect.completion op.handler_ ec) := by
  induction ops with
  | nil => rfl
  | cons o rest ih =>
    cases o with
    | none => simpa [abort_effects] using ih
    | some h => simp [abort_effects, ih]

theorem abort_effects_not_success {Msg : Type} (ops : List (Option (rpc_call_op Msg)))
    (ec : error_code) (hec : ec.failed = true) :
    ∀ e ∈ abort_effects ops ec, e.is_success_completion = false := by
  intro e he
  rw [abort_effects_eq] at he
  obtain ⟨op, -, rfl⟩ := List.mem_map.mp he
  cases ec with
  | success => cases hec
  | rpc c => rfl
  | transport v => rfl

/-- C14: `abort_rpc(ec)` invokes, in table order, the completion of each
occupied slot once with `ec` and nothing else, leaves every slot of the
session table empty and the handler registry empty, and leaves the write
queue, the transport and the free list as they were. -/
theorem abort_rpc_effect {Msg : Type} (s : rpc_websocket_service Msg) (ec : error_code) :
    (abort_rpc s ec).effects =
      s.effects ++ (s.m_call_ops.filterMap id).map (fun op => Effect.completion op.handler_ ec) ∧
    (abort_rpc s ec).m_call_ops = List.replicate s.m_call_ops.length none ∧
    (abort_rpc s ec).m_remote_methods = [] ∧
    (abort_rpc s ec).m_message_queue = s.m_message_queue ∧
    (abort_rpc s ec).m_websocket = s.m_websocket ∧
    (abort_rpc s ec).m_recycle = s.m_recycle := by
  refine ⟨?_, ?_, rfl, rfl, rfl, rfl⟩
  · show s.effects ++ abort_effects s.m_call_ops ec = _
    rw [abort_effects_eq]
  · show s.m_call_ops.map (fun _ => none) = _
    simp

/-! ## Failing dispatch -/

/-- C11: a callee envelope whose session is not below the table length makes
`dispatch` return 0 with `session_out_of_range`, and one whose session names an
empty slot makes it return 0 with `invalid_session`; in both cases the free
list is unchanged and no completion is invoked with the success code. -/
theorem dispatch_stale_session {Msg : Type} (P : Protobuf Msg)
    (s : rpc_websocket_service Msg) (buf : Bytes) (rb : rpc_base_ptl)
    (hframe : P.ParseEnvelope buf = some rb)
    (hcall : rb.call = call_type.callee) :
    (s.m_call_ops.length ≤ rb.session →
      ∃ s1 fired,
        dispatch P s buf error_code.success =
          .ok (s1, 0, error_code.rpc errc.session_out_of_range) ∧
        s1.m_recycle = s.m_recycle ∧
        s1.effects = s.effects ++ fired ∧
        ∀ e ∈ fired, e.is_success_completion = false) ∧
    (rb.session < s.m_call_ops.length → s.m_call_ops[rb.session]? = some none →
      ∃ s1 fired,
        dispatch P s buf error_code.success =
          .ok (s1, 0, error_code.rpc errc.invalid_session) ∧
        s1.m_recycle = s.m_recycle ∧
        s1.effects = s.effects ++ fired ∧
        ∀ e ∈ fired, e.is_success_completion = false) := by
  constructor
  · intro hge
    refine ⟨abort_rpc s (error_code.rpc errc.session_out_of_range),
      abort_effects s.m_call_ops (error_code.rpc errc.session_out_of_range), ?_, rfl, rfl,
      abort_effects_not_success _ _ rfl⟩
    simp [dispatch, hframe, rpc_dispatch, hcall, hge, error_code.failed]
  · intro hlt hslot
    refine ⟨abort_rpc s (error_code.rpc errc.invalid_session),
      abort_effects s.m_call_ops (error_code.rpc errc.invalid_session), ?_, rfl, rfl,
      abort_effects_not_success _ _ rfl⟩
    simp [dispatch, hframe, rpc_dispatch, hcall, not_le.mpr hlt, hslot, error_code.failed]

/-- The scenario S5 (C11): a reply for session 999 arrives at a fresh service. -/
theorem dispatch_stale_session_witness :
    ∃ s1 fired,
      dispatch Example.proto (fresh Example.Msg) [1, 999, 4, 80, 111, 110, 103, 42]
          error_code.success =
        .ok (s1, 0, error_code.rpc errc.session_out_of_range) ∧
      s1.m_recycle = (fresh Example.Msg).m_recycle ∧
      s1.effects = (fresh Example.Msg).effects ++ fired ∧
      ∀ e ∈ fired, e.is_success_completion = false :=
  (dispatch_stale_session Example.proto (fresh Example.Msg) [1, 999, 4, 80, 111, 110, 103, 42]
    { call := call_type.callee, session := 999, message := "Pong", payload := [42] }
    (by decide) rfl).1 (by decide)

/-- C12: a caller envelope whose message has a bound handler but whose payload
does not parse as a fresh request of that handler: `dispatch` returns 0 with
`parse_payload_failed`, invokes no bound handler, appends nothing to the write
queue, fires the completion of every outstanding call with that error, and
leaves the session table without occupied slot and the registry empty. -/
theorem dispatch_malformed_payload {Msg : Type} (P : Protobuf Msg)
    (s : rpc_websocket_service Msg) (buf : Bytes) (rb : rpc_base_ptl)
    (d : Descriptor) (method : rpc_bind_handler Msg)
    (hframe : P.ParseEnvelope buf = some rb)
    (hcall : rb.call = call_type.caller)
    (hdesc : P.FindMessageTypeByName rb.message = some d)
    (hmethod : s.m_remote_methods[d.index]? = some (some method))
    (hpay : P.ParseFromString (P.New method.msg_) rb.payload = none) :
    ∃ s1 fired,
      dispatch P s buf error_code.success =
        .ok (s1, 0, error_code.rpc errc.parse_payload_failed) ∧
      s1.effects = s.effects ++ fired ∧
      (∀ e ∈ fired, e.is_method = false) ∧
      (∀ (i : Nat) (op : rpc_call_op Msg), s.m_call_ops[i]? = some (some op) →
        Effect.completion op.handler_ (error_code.rpc errc.parse_payload_failed) ∈ fired) ∧
      (∀ i, occupied s1 i = false) ∧
      s1.m_remote_methods = [] ∧
      s1.m_message_queue = s.m_message_queue ∧
      s1.m_websocket = s.m_websocket := by
  refine ⟨abort_rpc s (error_code.rpc errc.parse_payload_failed),
    abort_effects s.m_call_ops (error_code.rpc errc.parse_payload_failed), ?_, rfl,
    abort_effects_not_method _ _, ?_, ?_, rfl, rfl, rfl⟩
  · simp [dispatch, hframe, rpc_dispatch, hcall, hdesc, hmethod, hpay, error_code.failed]
  · intro i op h
    exact abort_effects_complete _ _ i op h
  · intro i
    exact occupied_map_none _ i ⟨s.m_call_ops, rfl⟩

/-- The scenario S4 (C12): a `Ping` request with a truncated payload arrives at
a service that bound the (Ping, Pong) handler and has one call outstanding. -/
theorem dispatch_malformed_payload_witness :
    ∃ s1 fired,
      dispatch Example.proto Example.serving [0, 5, 4, 80, 105, 110, 103] error_code.success =
        .ok (s1, 0, error_code.rpc errc.parse_payload_failed) ∧
      s1.effects = Example.serving.effects ++ fired ∧
      (∀ e ∈ fired, e.is_method = false) ∧
      (∀ (i : Nat) (op : rpc_call_op Example.Msg),
        Example.serving.m_call_ops[i]? = some (some op) →
        Effect.completion op.handler_ (error_code.rpc errc.parse_payload_failed) ∈ fired) ∧
      (∀ i, occupied s1 i = false) ∧
      s1.m_remote_methods = [] ∧
      s1.m_message_queue = Example.serving.m_message_queue ∧
      s1.m_websocket = Example.serving.m_websocket :=
  dispatch_malformed_payload Example.proto Example.serving [0, 5, 4, 80, 105, 110, 103]
    { call := call_type.caller, session := 5, message := "Ping", payload := [] }
    (Example.descriptor (Example.Msg.Ping 0))
    { msg_ := Example.Msg.Ping 0, ret_ := Example.Msg.Pong 0, handler_ := Example.ping_handler }
    (by decide) rfl (by decide) rfl rfl


/-! ## The results of `dispatch` -/

theorem rpc_dispatch_fault_iff {Msg : Type} (P : Protobuf Msg)
    (s : rpc_websocket_service Msg) (rb : rpc_base_ptl) (ec : error_code) (f : Fault) :
    rpc_dispatch P s rb ec = .error f ↔
      rb.call = call_type.caller ∧
      ∃ d, P.FindMessageTypeByName rb.message = some d ∧
        ((s.m_remote_methods[d.index]? = none ∧ f = Fault.index_out_of_range) ∨
         (s.m_remote_methods[d.index]? = some none ∧ f = Fault.null_method)) := by
  cases hcall : rb.call with
  | caller =>
    cases hdesc : P.FindMessageTypeByName rb.message with
    | none => simp [rpc_dispatch, hcall, hdesc]
    | some d =>
      cases hm : s.m_remote_methods[d.index]? with
      | none =>
        have hlen : s.m_remote_methods.length ≤ d.index := List.getElem?_eq_none_iff.mp hm
        simp [rpc_dispatch, hcall, hdesc, hm, eq_comm, hlen]
      | some o =>
        have hlen : ¬ s.m_remote_methods.length ≤ d.index := by
          intro h
          rw [List.getElem?_eq_none h] at hm
          cases hm
        cases o with
        | none => simp [rpc_dispatch, hcall, hdesc, hm, eq_comm, hlen]
        | some method =>
          cases hp : P.ParseFromString (P.New method.msg_) rb.payload <;>
            simp [rpc_dispatch, hcall, hdesc, hm, hp, hlen]
  | callee =>
    simp only [rpc_dispatch, hcall, false_and, iff_false]
    split
    · simp
    · split
      · split <;> simp
      · simp

theorem dispatch_fault_iff {Msg : Type} (P : Protobuf Msg)
    (s : rpc_websocket_service Msg) (buf : Bytes) (ec : error_code) (f : Fault) :
    dispatch P s buf ec = .error f ↔
      ∃ rb d, P.ParseEnvelope buf = some rb ∧ rb.call = call_type.caller ∧
        P.FindMessageTypeByName rb.message = some d ∧
        ((s.m_remote_methods[d.index]? = none ∧ f = Fault.index_out_of_range) ∨
         (s.m_remote_methods[d.index]? = some none ∧ f = Fault.null_method)) := by
  cases hframe : P.ParseEnvelope buf with
  | none => simp [dispatch, hframe]
  | some rb =>
    have key : dispatch P s buf ec = .error f ↔ rpc_dispatch P s rb ec = .error f := by
      simp only [dispatch, hframe]
      cases hd : rpc_dispatch P s rb ec with
      | error g => simp
      | ok r =>
        obtain ⟨s1, ec1⟩ := r
        simp only
        split <;> simp
    rw [key, rpc_dispatch_fault_iff]
    constructor
    · rintro ⟨hc, d, hd, hcase⟩
      exact ⟨rb, d, rfl, hc, hd, hcase⟩
    · rintro ⟨rb1, d, h1, hc, hd, hcase⟩
      cases h1
      exact ⟨hc, d, hd, hcase⟩

theorem dispatch_return_shape {Msg : Type} (P : Protobuf Msg)
    (s s1 : rpc_websocket_service Msg) (buf : Bytes) (ec ec1 : error_code) (n : Nat)
    (h : dispatch P s buf ec = .ok (s1, n, ec1)) :
    (ec1.failed = false ∧ n = buf.length) ∨
    (ec1.failed = true ∧ n = 0 ∧ ∃ s0, s1 = abort_rpc s0 ec1) := by
  unfold dispatch at h
  split at h
  · cases h
    exact Or.inr ⟨rfl, rfl, s, rfl⟩
  · split at h
    · cases h
    · rename_i s2 ec2 hd
      split at h
      · rename_i hf
        cases h
        exact Or.inr ⟨hf, rfl, s2, rfl⟩
      · rename_i hf
        cases h
        exact Or.inl ⟨by simpa using hf, rfl⟩

/-- C13 at a failing input: a service with the (Ping, Pong) handler bound
receives a malformed frame, which `dispatch` answers as specified (0 bytes,
`parse_rpc_service_ptl_failed`, abort); the next frame is a well-formed `Ping`
request, and on it `dispatch` returns neither a byte count nor an error code:
it indexes the registry that the abort has emptied. -/
theorem dispatch_after_abort_faults :
    ∃ s1, dispatch Example.proto Example.serving [] error_code.success =
        .ok (s1, 0, error_code.rpc errc.parse_rpc_service_ptl_failed) ∧
      s1.m_remote_methods = [] ∧
      dispatch Example.proto s1 [0, 5, 4, 80, 105, 110, 103, 42] error_code.success =
        .error Fault.index_out_of_range :=
  ⟨_, rfl, rfl, rfl⟩


/-! ## The write queue -/

theorem rpc_write_websocket {Msg : Type} (s : rpc_websocket_service Msg) (context : Bytes) :
    (rpc_write s context).m_websocket =
      if s.m_message_queue = [] then async_write s.m_websocket context else s.m_websocket := by
  unfold rpc_write
  cases hq : s.m_message_queue <;> simp

theorem q_step_enqueue_inv {Msg : Type} (s : rpc_websocket_service Msg) (buf : Bytes)
    (hfl : s.m_websocket.in_flight = [] ∨ s.m_websocket.in_flight = s.m_message_queue.take 1) :
    ((rpc_write s buf).m_websocket.in_flight = [] ∨
      (rpc_write s buf).m_websocket.in_flight = (rpc_write s buf).m_message_queue.take 1) ∧
    (s.m_websocket.in_flight = s.m_message_queue.take 1 →
      (rpc_write s buf).m_websocket.in_flight = (rpc_write s buf).m_message_queue.take 1) ∧
    ∀ pre done : List Bytes, pre = done ++ s.m_message_queue →
      s.m_websocket.written = done ++ s.m_websocket.in_flight →
      pre ++ [buf] = done ++ (rpc_write s buf).m_message_queue ∧
      (rpc_write s buf).m_websocket.written = done ++ (rpc_write s buf).m_websocket.in_flight := by
  rw [rpc_write_queue, rpc_write_websocket]
  cases hq : s.m_message_queue with
  | nil =>
    have hnil : s.m_websocket.in_flight = [] := by
      rcases hfl with h | h
      · exact h
      · simpa [hq] using h
    refine ⟨by simp [async_write, hnil], by simp [async_write, hnil], ?_⟩
    intro pre done hpre hwr
    simp [async_write, hpre, hq, hwr, hnil]
  | cons h t =>
    rw [hq] at hfl
    simp only [reduceCtorEq, if_false, List.cons_append, List.take_succ_cons, List.take_zero]
    refine ⟨by simpa using hfl, fun h1 => by simpa [hq] using h1, ?_⟩
    intro pre done hpre hwr
    exact ⟨by simp [hpre, hq], hwr⟩

theorem q_step_complete_inv {Msg : Type} (s s1 : rpc_websocket_service Msg) (ec : error_code)
    (hfl : s.m_websocket.in_flight = [] ∨ s.m_websocket.in_flight = s.m_message_queue.take 1)
    (hstep : write_complete s ec = some (.ok s1)) :
    (s1.m_websocket.in_flight = [] ∨ s1.m_websocket.in_flight = s1.m_message_queue.take 1) ∧
    (ec.failed = false →
      s1.m_websocket.in_flight = s1.m_message_queue.take 1 ∧
      ∀ pre done : List Bytes, pre = done ++ s.m_message_queue →
        s.m_websocket.written = done ++ s.m_websocket.in_flight →
        ∃ done1, pre = done1 ++ s1.m_message_queue ∧
          s1.m_websocket.written = done1 ++ s1.m_websocket.in_flight) := by
  unfold write_complete at hstep
  cases hin : s.m_websocket.in_flight with
  | nil => simp [hin] at hstep
  | cons x rest =>
    have htake : s.m_websocket.in_flight = s.m_message_queue.take 1 := by
      rcases hfl with h | h
      · rw [hin] at h; cases h
      · exact h
    cases hq : s.m_message_queue with
    | nil => simp [hq, hin] at htake
    | cons y t =>
      have hxy : x = y ∧ rest = [] := by
        rw [hin, hq] at htake
        simpa using htake
      obtain ⟨rfl, rfl⟩ := hxy
      simp only [hin, Option.some.injEq] at hstep
      unfold rpc_write_handle at hstep
      cases hf : ec.failed with
      | true =>
        simp only [hf, if_true, Except.ok.injEq] at hstep
        subst hstep
        exact ⟨Or.inl rfl, by intro h; cases h⟩
      | false =>
        simp only [hf, Bool.false_eq_true, if_false, hq] at hstep
        cases t with
        | nil =>
          simp only [Except.ok.injEq] at hstep
          subst hstep
          refine ⟨Or.inl rfl, fun _ => ⟨rfl, ?_⟩⟩
          intro pre done hpre hwr
          exact ⟨done ++ [x], by simp [hpre], by simp [hwr]⟩
        | cons c t2 =>
          simp only [Except.ok.injEq] at hstep
          subst hstep
          refine ⟨Or.inr (by simp [async_write]), fun _ => ⟨by simp [async_write], ?_⟩⟩
          intro pre done hpre hwr
          exact ⟨done ++ [x], by simp [hpre], by simp [async_write, hwr]⟩

theorem write_complete_enabled {Msg : Type} (s : rpc_websocket_service Msg) (ec : error_code)
    (hfl : s.m_websocket.in_flight = [] ∨ s.m_websocket.in_flight = s.m_message_queue.take 1)
    (hne : s.m_websocket.in_flight ≠ []) :
    ∃ s1, write_complete s ec = some (.ok s1) := by
  have htake : s.m_websocket.in_flight = s.m_message_queue.take 1 := by
    rcases hfl with h | h
    · exact absurd h hne
    · exact h
  cases hq : s.m_message_queue with
  | nil => simp [hq] at htake; exact absurd htake hne
  | cons y t =>
    have hin : s.m_websocket.in_flight = [y] := by simpa [hq] using htake
    unfold write_complete rpc_write_handle
    simp only [hin, hq]
    cases hf : ec.failed with
    | true => exact ⟨_, rfl⟩
    | false =>
      cases t with
      | nil => exact ⟨_, rfl⟩
      | cons c t2 => exact ⟨_, rfl⟩

theorem write_complete_failed {Msg : Type} (s : rpc_websocket_service Msg) (ec : error_code)
    (hfl : s.m_websocket.in_flight = [] ∨ s.m_websocket.in_flight = s.m_message_queue.take 1)
    (hne : s.m_websocket.in_flight ≠ []) (hf : ec.failed = true) :
    ∃ s1, write_complete s ec = some (.ok s1) ∧
      s1.m_message_queue = s.m_message_queue ∧
      s1.m_websocket.in_flight = [] ∧
      s1.m_websocket.written = s.m_websocket.written := by
  have htake : s.m_websocket.in_flight = s.m_message_queue.take 1 := by
    rcases hfl with h | h
    · exact absurd h hne
    · exact h
  cases hq : s.m_message_queue with
  | nil => simp [hq] at htake; exact absurd htake hne
  | cons y t =>
    have hin : s.m_websocket.in_flight = [y] := by simpa [hq] using htake
    unfold write_complete rpc_write_handle
    simp only [hin, hf, if_true]
    exact ⟨_, rfl, hq, rfl, rfl⟩

theorem q_step_inv {Msg : Type} (s s1 : rpc_websocket_service Msg) (e : QEvent)
    (hfl : s.m_websocket.in_flight = [] ∨ s.m_websocket.in_flight = s.m_message_queue.take 1)
    (hstep : q_step s e = some s1) :
    (s1.m_websocket.in_flight = [] ∨ s1.m_websocket.in_flight = s1.m_message_queue.take 1) ∧
    (e.succeeds = true → s.m_websocket.in_flight = s.m_message_queue.take 1 →
      s1.m_websocket.in_flight = s1.m_message_queue.take 1 ∧
      ∀ pre done : List Bytes, pre = done ++ s.m_message_queue →
        s.m_websocket.written = done ++ s.m_websocket.in_flight →
        ∃ done1, pre ++ enqueued [e] = done1 ++ s1.m_message_queue ∧
          s1.m_websocket.written = done1 ++ s1.m_websocket.in_flight) := by
  cases e with
  | enqueue buf =>
    simp only [q_step, Option.some.injEq] at hstep
    subst hstep
    obtain ⟨h1, h2, h3⟩ := q_step_enqueue_inv s buf hfl
    refine ⟨h1, fun _ hs => ⟨h2 hs, ?_⟩⟩
    intro pre done hpre hwr
    exact ⟨done, h3 pre done hpre hwr⟩
  | write_complete ec =>
    have hw : write_complete s ec = some (.ok s1) := by
      simp only [q_step] at hstep
      split at hstep
      · rename_i s2 heq
        cases hstep
        exact heq
      · cases hstep
    obtain ⟨h1, h2⟩ := q_step_complete_inv s s1 ec hfl hw
    refine ⟨h1, fun hok _ => ?_⟩
    have hf : ec.failed = false := by simpa [QEvent.succeeds] using hok
    obtain ⟨h3, h4⟩ := h2 hf
    refine ⟨h3, ?_⟩
    intro pre done hpre hwr
    simpa [enqueued] using h4 pre done hpre hwr

theorem q_run_inv {Msg : Type} (events : List QEvent) (s s1 : rpc_websocket_service Msg)
    (hfl : s.m_websocket.in_flight = [] ∨ s.m_websocket.in_flight = s.m_message_queue.take 1)
    (hrun : q_run s events = some s1) :
    s1.m_websocket.in_flight = [] ∨ s1.m_websocket.in_flight = s1.m_message_queue.take 1 := by
  induction events generalizing s with
  | nil =>
    simp only [q_run, Option.some.injEq] at hrun
    subst hrun
    exact hfl
  | cons e es ih =>
    unfold q_run at hrun
    split at hrun
    · rename_i s2 hstep
      exact ih s2 (q_step_inv s s2 e hfl hstep).1 hrun
    · cases hrun

theorem enqueued_cons (e : QEvent) (es : List QEvent) :
    enqueued (e :: es) = enqueued [e] ++ enqueued es := by
  cases e <;> simp [enqueued]

theorem q_run_sync {Msg : Type} (events : List QEvent) (s s1 : rpc_websocket_service Msg)
    (pre done : List Bytes)
    (hok : ∀ e ∈ events, e.succeeds = true)
    (hsync : s.m_websocket.in_flight = s.m_message_queue.take 1)
    (hpre : pre = done ++ s.m_message_queue)
    (hwr : s.m_websocket.written = done ++ s.m_websocket.in_flight)
    (hrun : q_run s events = some s1) :
    s1.m_websocket.in_flight = s1.m_message_queue.take 1 ∧
    ∃ done1, pre ++ enqueued events = done1 ++ s1.m_message_queue ∧
      s1.m_websocket.written = done1 ++ s1.m_websocket.in_flight := by
  induction events generalizing s pre done with
  | nil =>
    simp only [q_run, Option.some.injEq] at hrun
    subst hrun
    exact ⟨hsync, done, by simp [enqueued, hpre], hwr⟩
  | cons e es ih =>
    unfold q_run at hrun
    split at hrun
    · rename_i s2 hstep
      obtain ⟨-, h2⟩ := q_step_inv s s2 e (Or.inr hsync) hstep
      obtain ⟨hsync2, h3⟩ := h2 (hok e (List.mem_cons_self _ _)) hsync
      obtain ⟨done2, hpre2, hwr2⟩ := h3 pre done hpre hwr
      obtain ⟨h4, done3, h5, h6⟩ :=
        ih s2 (pre ++ enqueued [e]) done2 (fun x hx => hok x (List.mem_cons_of_mem _ hx))
          hsync2 hpre2 hwr2 hrun
      refine ⟨h4, done3, ?_, h6⟩
      rw [enqueued_cons, ← List.append_assoc]
      exact h5
    · cases hrun


/-- C15: in every state reached from a fresh service by `rpc_write` calls and
write completions (successful or failed, delivered only while a write is
outstanding), at most one write has been submitted to the transport and not
yet completed; and while one is outstanding its completion is handled without
fault, whatever its error code. -/
theorem at_most_one_write_in_flight {Msg : Type} (events : List QEvent)
    (s : rpc_websocket_service Msg) (hrun : q_run (fresh Msg) events = some s) :
    s.m_websocket.in_flight.length ≤ 1 ∧
    ∀ ec, s.m_websocket.in_flight ≠ [] →
      ∃ s1, q_step s (QEvent.write_complete ec) = some s1 := by
  have hinv := q_run_inv events (fresh Msg) s (Or.inl rfl) hrun
  constructor
  · rcases hinv with h | h
    · simp [h]
    · rw [h, List.length_take]
      exact Nat.min_le_left _ _
  · intro ec hne
    obtain ⟨s1, h1⟩ := write_complete_enabled s ec hinv hne
    exact ⟨s1, by simp [q_step, h1]⟩

/-- An instance of C15: three buffers are enqueued around one successful and
one failed write completion. -/
theorem at_most_one_write_in_flight_witness :
    ∃ s : rpc_websocket_service Example.Msg,
      q_run (fresh Example.Msg)
        [QEvent.enqueue [1], QEvent.enqueue [2], QEvent.write_complete error_code.success,
          QEvent.enqueue [3], QEvent.write_complete (error_code.transport 1)] = some s ∧
      s.m_websocket.in_flight.length ≤ 1 ∧
      ∀ ec, s.m_websocket.in_flight ≠ [] →
        ∃ s1, q_step s (QEvent.write_complete ec) = some s1 :=
  ⟨_, rfl,
    at_most_one_write_in_flight
      [QEvent.enqueue [1], QEvent.enqueue [2], QEvent.write_complete error_code.success,
        QEvent.enqueue [3], QEvent.write_complete (error_code.transport 1)] _ rfl⟩

/-- C16 fails as stated: after one buffer is enqueued and its write completes
with a transport error, the queue still holds the buffer but no write is in
flight, so neither alternative holds; a further `rpc_write` submits nothing. -/
theorem write_queue_stalled_after_failure :
    ∃ s : rpc_websocket_service Example.Msg,
      q_run (fresh Example.Msg)
        [QEvent.enqueue [1], QEvent.write_complete (error_code.transport 1)] = some s ∧
      ¬ ((s.m_message_queue = [] ∧ s.m_websocket.in_flight = []) ∨
         (∃ h rest, s.m_message_queue = h :: rest ∧ s.m_websocket.in_flight = [h])) ∧
      (rpc_write s [2]).m_websocket.written = s.m_websocket.written :=
  ⟨_, rfl,
    by
      rintro (⟨hq, -⟩ | ⟨h, rest, -, hf⟩)
      · exact List.cons_ne_nil _ _ hq
      · exact List.cons_ne_nil _ _ hf.symm,
    rfl⟩

/-- C16 as amended: in every state reached by `rpc_write` calls and write
completions, a write in flight is the only one and its buffer is the head of
the non-empty queue; as long as no write completion has failed, exactly one of
(a) queue empty and nothing in flight, (b) queue non-empty and its head in
flight, holds; `rpc_write` submits its buffer exactly when the queue was
empty before the call; and a failed completion of the write in flight is
handled, after which the queue holds the same buffers as before, no write is
in flight, and nothing further has been submitted. -/
theorem write_queue_head_in_flight {Msg : Type} (events : List QEvent)
    (s : rpc_websocket_service Msg) (hrun : q_run (fresh Msg) events = some s) :
    (s.m_websocket.in_flight = [] ∨
      ∃ h rest, s.m_message_queue = h :: rest ∧ s.m_websocket.in_flight = [h]) ∧
    ((∀ e ∈ events, e.succeeds = true) →
      (s.m_message_queue = [] ∧ s.m_websocket.in_flight = []) ∨
      (∃ h rest, s.m_message_queue = h :: rest ∧ s.m_websocket.in_flight = [h])) ∧
    (∀ buf, (rpc_write s buf).m_websocket.written =
      s.m_websocket.written ++ (if s.m_message_queue = [] then [buf] else [])) ∧
    ∀ ec, ec.failed = true → s.m_websocket.in_flight ≠ [] →
      ∃ s1, q_step s (QEvent.write_complete ec) = some s1 ∧
        s1.m_message_queue = s.m_message_queue ∧
        s1.m_websocket.in_flight = [] ∧
        s1.m_websocket.written = s.m_websocket.written := by
  have hinv := q_run_inv events (fresh Msg) s (Or.inl rfl) hrun
  have key : ∀ q : List Bytes, ∀ f : List Bytes, f = q.take 1 →
      (q = [] ∧ f = []) ∨ (∃ h rest, q = h :: rest ∧ f = [h]) := by
    intro q f hf
    cases q with
    | nil => exact Or.inl ⟨rfl, by simpa using hf⟩
    | cons h rest => exact Or.inr ⟨h, rest, rfl, by simpa using hf⟩
  refine ⟨?_, ?_, ?_, ?_⟩
  · rcases hinv with h | h
    · exact Or.inl h
    · rcases key _ _ h with ⟨-, h2⟩ | h2
      · exact Or.inl h2
      · exact Or.inr h2
  · intro hok
    exact key _ _ (q_run_sync events (fresh Msg) s [] [] hok rfl rfl rfl hrun).1
  · intro buf
    rw [rpc_write_websocket]
    split <;> simp [async_write]
  · intro ec hf hne
    obtain ⟨s1, h1, hq, hfl, hwr⟩ := write_complete_failed s ec hinv hne hf
    exact ⟨s1, by simp [q_step, h1], hq, hfl, hwr⟩

/-- An instance of the amended C16: two buffers are enqueued and the first
write completes, so the second buffer is at the head of the queue and in
flight; every completion so far succeeded, and a failure of the write in
flight would leave that buffer queued with nothing in flight. -/
theorem write_queue_head_in_flight_witness :
    ∃ s : rpc_websocket_service Example.Msg,
      q_run (fresh Example.Msg)
        [QEvent.enqueue [1], QEvent.enqueue [2], QEvent.write_complete error_code.success] =
        some s ∧
      (s.m_websocket.in_flight = [] ∨
        ∃ h rest, s.m_message_queue = h :: rest ∧ s.m_websocket.in_flight = [h]) ∧
      ((∀ e ∈ [QEvent.enqueue [1], QEvent.enqueue [2],
          QEvent.write_complete error_code.success], e.succeeds = true) →
        (s.m_message_queue = [] ∧ s.m_websocket.in_flight = []) ∨
        (∃ h rest, s.m_message_queue = h :: rest ∧ s.m_websocket.in_flight = [h])) ∧
      (∀ buf, (rpc_write s buf).m_websocket.written =
        s.m_websocket.written ++ (if s.m_message_queue = [] then [buf] else [])) ∧
      ∀ ec, ec.failed = true → s.m_websocket.in_flight ≠ [] →
        ∃ s1, q_step s (QEvent.write_complete ec) = some s1 ∧
          s1.m_message_queue = s.m_message_queue ∧
          s1.m_websocket.in_flight = [] ∧
          s1.m_websocket.written = s.m_websocket.written :=
  ⟨_, rfl,
    write_queue_head_in_flight
      [QEvent.enqueue [1], QEvent.enqueue [2], QEvent.write_complete error_code.success] _ rfl⟩

/-- C17: for every sequence of `rpc_write` calls and successful write
completions run from a fresh service, the buffers submitted to the transport
are, in order, a prefix of the buffers enqueued; and when no write is
outstanding the two sequences are equal and the queue is empty. -/
theorem writes_in_enqueue_order {Msg : Type} (events : List QEvent)
    (s : rpc_websocket_service Msg)
    (hok : ∀ e ∈ events, e.succeeds = true)
    (hrun : q_run (fresh Msg) events = some s) :
    s.m_websocket.written <+: enqueued events ∧
    (s.m_websocket.in_flight = [] →
      s.m_websocket.written = enqueued events ∧ s.m_message_queue = []) := by
  obtain ⟨hsync, done, hpre, hwr⟩ :=
    q_run_sync events (fresh Msg) s [] [] hok rfl rfl rfl hrun
  simp only [List.nil_append] at hpre
  constructor
  · refine ⟨s.m_message_queue.drop 1, ?_⟩
    rw [hwr, hsync, hpre, List.append_assoc, List.take_append_drop]
  · intro hnone
    have hq : s.m_message_queue = [] := by
      rw [hnone] at hsync
      cases hq : s.m_message_queue with
      | nil => rfl
      | cons h t => simp [hq] at hsync
    exact ⟨by rw [hwr, hpre, hnone, hq], hq⟩

/-- An instance of C17: three buffers and three successful completions; all
three reach the transport in the order enqueued. -/
theorem writes_in_enqueue_order_witness :
    ∃ s : rpc_websocket_service Example.Msg,
      q_run (fresh Example.Msg)
        [QEvent.enqueue [1], QEvent.enqueue [2], QEvent.write_complete error_code.success,
          QEvent.enqueue [3], QEvent.write_complete error_code.success,
          QEvent.write_complete error_code.success] = some s ∧
      s.m_websocket.written <+: [[1], [2], [3]] ∧
      (s.m_websocket.in_flight = [] →
        s.m_websocket.written = [[1], [2], [3]] ∧ s.m_message_queue = []) :=
  ⟨_, rfl,
    writes_in_enqueue_order
      [QEvent.enqueue [1], QEvent.enqueue [2], QEvent.write_complete error_code.success,
        QEvent.enqueue [3], QEvent.write_complete error_code.success,
        QEvent.write_complete error_code.success] _ (by decide) rfl⟩


/-! ## The handler registry -/

theorem rpc_bind_ok {Msg : Type} (P : Protobuf Msg) (s : rpc_websocket_service Msg)
    (req reply : Msg) (handler : Msg → Msg → Msg)
    (hidx : (P.descriptor req).index <
      (if s.m_remote_methods.isEmpty then (P.descriptor req).message_type_count
        else s.m_remote_methods.length)) :
    rpc_bind P s req reply handler =
      .ok { s with
            m_remote_methods :=
              (if s.m_remote_methods.isEmpty then
                  List.replicate (P.descriptor req).message_type_count none
                else s.m_remote_methods).set (P.descriptor req).index
                (some { msg_ := req, ret_ := reply, handler_ := handler }) } := by
  unfold rpc_bind
  cases hnil : s.m_remote_methods.isEmpty with
  | true =>
    simp only [hnil, if_true] at hidx
    simp [hidx]
  | false =>
    simp only [hnil, Bool.false_eq_true, if_false] at hidx
    simp [hidx]

/-- C18: when the schema index of the request type is below the registry
length (for an empty registry: below the message-type count of the request's
schema file, to which `rpc_bind` sizes it), `rpc_bind` puts the new handler at
that index, whatever was there before, leaves every other entry as it was,
keeps the length of a non-empty registry, and touches neither the session
table nor the write queue. -/
theorem rpc_bind_effect {Msg : Type} (P : Protobuf Msg) (s : rpc_websocket_service Msg)
    (req reply : Msg) (handler : Msg → Msg → Msg)
    (hidx : (P.descriptor req).index <
      (if s.m_remote_methods.isEmpty then (P.descriptor req).message_type_count
        else s.m_remote_methods.length)) :
    ∃ s1, rpc_bind P s req reply handler = .ok s1 ∧
      s1.m_remote_methods[(P.descriptor req).index]? =
        some (some { msg_ := req, ret_ := reply, handler_ := handler }) ∧
      (s.m_remote_methods ≠ [] →
        s1.m_remote_methods.length = s.m_remote_methods.length ∧
        ∀ i, i ≠ (P.descriptor req).index → s1.m_remote_methods[i]? = s.m_remote_methods[i]?) ∧
      (s.m_remote_methods = [] →
        s1.m_remote_methods.length = (P.descriptor req).message_type_count ∧
        ∀ i, i ≠ (P.descriptor req).index → i < (P.descriptor req).message_type_count →
          s1.m_remote_methods[i]? = some none) ∧
      s1.m_call_ops = s.m_call_ops ∧
      s1.m_recycle = s.m_recycle ∧
      s1.m_message_queue = s.m_message_queue ∧
      s1.m_websocket = s.m_websocket ∧
      s1.effects = s.effects := by
  refine ⟨_, rpc_bind_ok P s req reply handler hidx, ?_, ?_, ?_, rfl, rfl, rfl, rfl, rfl⟩
  · cases hnil : s.m_remote_methods.isEmpty with
    | true =>
      simp only [hnil, if_true] at hidx
      simp [hidx]
    | false =>
      simp only [hnil, Bool.false_eq_true, if_false] at hidx
      simp [hidx]
  · intro hne
    have hb : s.m_remote_methods.isEmpty = false := by simpa using hne
    refine ⟨by simp [hb], ?_⟩
    intro i hi
    simp [hb, List.getElem?_set, Ne.symm hi]
  · intro hnil
    have hb : s.m_remote_methods.isEmpty = true := by simpa using hnil
    refine ⟨by simp [hb], ?_⟩
    intro i hi hlt
    simp [hb, List.getElem?_set, Ne.symm hi, hlt]

/-- An instance of C18: the first bind on a fresh service sizes the registry
to the two message types of the schema file. -/
theorem rpc_bind_effect_witness :
    ∃ s1, rpc_bind Example.proto (fresh Example.Msg) (Example.Msg.Ping 0) (Example.Msg.Pong 0)
        Example.ping_handler = .ok s1 ∧
      s1.m_remote_methods[0]? =
        some (some { msg_ := Example.Msg.Ping 0, ret_ := Example.Msg.Pong 0,
                     handler_ := Example.ping_handler }) ∧
      ((fresh Example.Msg).m_remote_methods ≠ [] →
        s1.m_remote_methods.length = (fresh Example.Msg).m_remote_methods.length ∧
        ∀ i, i ≠ 0 → s1.m_remote_methods[i]? = (fresh Example.Msg).m_remote_methods[i]?) ∧
      ((fresh Example.Msg).m_remote_methods = [] →
        s1.m_remote_methods.length = 2 ∧
        ∀ i, i ≠ 0 → i < 2 → s1.m_remote_methods[i]? = some none) ∧
      s1.m_call_ops = (fresh Example.Msg).m_call_ops ∧
      s1.m_recycle = (fresh Example.Msg).m_recycle ∧
      s1.m_message_queue = (fresh Example.Msg).m_message_queue ∧
      s1.m_websocket = (fresh Example.Msg).m_websocket ∧
      s1.effects = (fresh Example.Msg).effects :=
  rpc_bind_effect Example.proto (fresh Example.Msg) (Example.Msg.Ping 0) (Example.Msg.Pong 0)
    Example.ping_handler (by decide)


/-! ## Sessions on the wire -/

/-- C19 fails as stated: a service with an empty session table that bound the
(Ping, Pong) handler receives a `Ping` request with session 5; the reply
envelope it hands to the write queue carries session 5, which is not below the
table length 0. -/
theorem reply_session_not_below_table :
    ∃ s1, dispatch Example.proto Example.bound [0, 5, 4, 80, 105, 110, 103, 42]
        error_code.success = .ok (s1, 8, error_code.success) ∧
      s1.m_message_queue =
        [Example.proto.SerializeEnvelope
          { call := call_type.callee, session := 5, message := "Pong", payload := [42] }] ∧
      ¬ (5 < s1.m_call_ops.length) :=
  ⟨_, rfl, rfl, by decide⟩

/-- C19 as amended: in every reachable state the caller envelope that
`async_call` hands to the write queue carries a session strictly below the
table length at that moment (the slot of the call is already stored); the
callee envelope that `dispatch` hands to the write queue carries the session
of the incoming envelope. -/
theorem emitted_session {Msg : Type} (P : Protobuf Msg)
    (s : rpc_websocket_service Msg) (hs : Reachable P s) :
    (∀ (msg ret : Msg) (handler : Nat),
      ∃ s1 session, async_call P s msg ret handler = .ok s1 ∧
        s1.m_message_queue = s.m_message_queue ++
          [P.SerializeEnvelope
            { call := call_type.caller
              session := session
              message := P.GetTypeName msg
              payload := P.SerializeAsString msg }] ∧
        session < s1.m_call_ops.length) ∧
    (∀ (buf : Bytes) (rb : rpc_base_ptl) (d : Descriptor) (method : rpc_bind_handler Msg)
        (req : Msg),
      P.ParseEnvelope buf = some rb → rb.call = call_type.caller →
      P.FindMessageTypeByName rb.message = some d →
      s.m_remote_methods[d.index]? = some (some method) →
      P.ParseFromString (P.New method.msg_) rb.payload = some req →
      ∃ s1, dispatch P s buf error_code.success = .ok (s1, buf.length, error_code.success) ∧
        s1.m_message_queue = s.m_message_queue ++
          [P.SerializeEnvelope
            { call := call_type.callee
              session := rb.session
              message := P.GetTypeName (method.handler_ req (P.New method.ret_))
              payload := P.SerializeAsString (method.handler_ req (P.New method.ret_)) }]) := by
  constructor
  · intro msg ret handler
    obtain ⟨s1, session, hok, hq, hnil, hcons, -, -, -, -⟩ :=
      async_call_spec P s (FreeInv_reachable P s hs) msg ret handler
    refine ⟨s1, session, hok, hq, ?_⟩
    by_cases h0 : s.m_recycle = []
    · obtain ⟨h1, h2⟩ := hnil h0
      simp [h1, h2]
    · obtain ⟨-, h2, h3⟩ := hcons h0
      simpa [h3] using h2
  · intro buf rb d method req hframe hcall hdesc hmethod hpay
    exact ⟨_, dispatch_caller_ok P s buf rb d method req hframe hcall hdesc hmethod hpay,
      rpc_write_queue _ _⟩

/-- An instance of the amended C19: the service that bound the (Ping, Pong)
handler. -/
theorem emitted_session_witness :
    Reachable Example.proto Example.bound ∧
    (∀ (msg ret : Example.Msg) (handler : Nat),
      ∃ s1 session, async_call Example.proto Example.bound msg ret handler = .ok s1 ∧
        s1.m_message_queue = Example.bound.m_message_queue ++
          [Example.proto.SerializeEnvelope
            { call := call_type.caller
              session := session
              message := Example.proto.GetTypeName msg
              payload := Example.proto.SerializeAsString msg }] ∧
        session < s1.m_call_ops.length) ∧
    (∀ (buf : Bytes) (rb : rpc_base_ptl) (d : Descriptor)
        (method : rpc_bind_handler Example.Msg) (req : Example.Msg),
      Example.proto.ParseEnvelope buf = some rb → rb.call = call_type.caller →
      Example.proto.FindMessageTypeByName rb.message = some d →
      Example.bound.m_remote_methods[d.index]? = some (some method) →
      Example.proto.ParseFromString (Example.proto.New method.msg_) rb.payload = some req →
      ∃ s1, dispatch Example.proto Example.bound buf error_code.success =
          .ok (s1, buf.length, error_code.success) ∧
        s1.m_message_queue = Example.bound.m_message_queue ++
          [Example.proto.SerializeEnvelope
            { call := call_type.callee
              session := rb.session
              message := Example.proto.GetTypeName
                (method.handler_ req (Example.proto.New method.ret_))
              payload := Example.proto.SerializeAsString
                (method.handler_ req (Example.proto.New method.ret_)) }]) :=
  have hreach : Reachable Example.proto Example.bound :=
    Reachable.step (fresh Example.Msg) Example.bound Reachable.fresh
      (Step.bind (fresh Example.Msg) Example.bound (Example.Msg.Ping 0) (Example.Msg.Pong 0)
        Example.ping_handler rfl)
  ⟨hreach, emitted_session Example.proto Example.bound hreach⟩


/-! ## Which handler a request reaches -/

theorem last_bound_nil {Msg : Type} (P : Protobuf Msg) (i : Nat) :
    last_bound P ([] : List (Binding Msg)) i = none := rfl

end tinyrpc
